import Mathlib

/-!
Verification development for the yt-dlp HTTP backend.

This file shallowly embeds the functions of the repository that the checked
claims are about and proves (or refutes) the claims against those embeddings:

* `app/utils/ytdlp_helper.py` — `parse_progress_line`, `detect_stream_type`,
  `fetch_video_metadata` (as a subprocess-invocation record);
* `app/utils/sse_helper.py` — `format_sse_event`, together with a model of
  Python's `json.dumps` (default options: `ensure_ascii=True`, separators
  `", "` / `": "`) and a strict decoder for the produced framing;
* `app/routes/yt_download.py` — the synchronous `yt_download` result
  assembly and the `yt_download_streaming` per-line event loop, modelled over
  an explicit "world" that fixes the outcomes of the external subprocesses;
* `app/main.py` — the `do_GET` dispatch for `/yt_download` and `/yt_details`
  restricted to the data visible in a response (status code, JSON body,
  number of subprocesses spawned).

Machine floats are avoided: the Python `float(...)` call in the progress
parsers is embedded as the decidable acceptance predicate `pyFloatAccepts`
on the raw token (the grammar Python's `float` constructor accepts), and the
parsed percentage is carried as its source token.  Filesystem facts (file
sizes, `os.path.exists`) are abstracted to presence booleans.
-/

/-! ### Python string primitives

The Python operations the source uses on output lines: substring test
(`in`), `str.strip()` / `str.rstrip('%')`, `str.lower()`, and the
argument-less `str.split()` (split on whitespace runs, dropping empties).
All are modelled on `List Char` and wrapped for `String`.
-/

/-- Characters Python's `str.strip()` and `str.split()` treat as whitespace
(ASCII fragment). -/
def pyIsSpace (c : Char) : Bool :=
  c = ' ' || c = '\t' || c = '\n' || c = '\r' || c = '\x0b' || c = '\x0c'

/-- Python `needle in hay` substring test, on char lists. -/
def subL (needle : List Char) : List Char → Bool
  | [] => needle.isEmpty
  | c :: rest => needle.isPrefixOf (c :: rest) || subL needle rest

/-- Python `needle in hay` substring test for strings. -/
def strContains (hay needle : String) : Bool :=
  subL needle.toList hay.toList

/-- Python `s.strip()` on a char list. -/
def pyStripL (cs : List Char) : List Char :=
  ((cs.dropWhile pyIsSpace).reverse.dropWhile pyIsSpace).reverse

/-- Python `s.strip()`. -/
def pyStrip (s : String) : String := ⟨pyStripL s.toList⟩

/-- Python `s.lower()` (ASCII model; the tokens the source searches for are
all ASCII). -/
def pyLower (s : String) : String := ⟨s.toList.map Char.toLower⟩

/-- Python `s.split()` with no separator: split on runs of whitespace and
drop empty fields. -/
def pyWords (s : String) : List String :=
  ((s.toList.splitOnP pyIsSpace).filter (fun l => ¬ l.isEmpty)).map
    (fun l => (⟨l⟩ : String))

/-- Python `s.rstrip('%')`: drop every trailing `'%'`. -/
def rstripPercent (s : String) : String :=
  ⟨(s.toList.reverse.dropWhile (· = '%')).reverse⟩

/-- The `if tok in parts: idx = parts.index(tok); if idx + 1 < len(parts):`
lookup pattern used for the `of` / `at` / `ETA` companion tokens
(`ytdlp_helper.py` lines 126-139, `yt_download.py` lines 257-270). -/
def lookupAfter (tok : String) (parts : List String) : Option String :=
  if tok ∈ parts then
    let idx := parts.indexOf tok
    if idx + 1 < parts.length then parts.get? (idx + 1) else none
  else none

/-! ### The grammar accepted by Python's `float` constructor

`float(percent_str)` either returns a value or raises `ValueError`; the
source only branches on which of the two happens, so the embedding keeps
the decidable acceptance predicate.  Grammar (CPython): optional
whitespace, optional sign, then `inf`/`infinity`/`nan` (case-insensitive)
or a decimal literal — digits with single underscores strictly between
digits, an optional point with digits on at least one side, and an
optional exponent. -/

/-- A nonempty digit run in which each underscore sits between two digits
(CPython numeric-literal underscore rule). -/
def digitRun : List Char → Bool
  | [] => false
  | [c] => c.isDigit
  | c :: '_' :: rest => c.isDigit && digitRun rest
  | c :: rest => c.isDigit && digitRun rest

/-- Mantissa part: `digits`, `digits.`, `.digits` or `digits.digits`. -/
def mantissaOk (cs : List Char) : Bool :=
  match cs.splitOnP (fun c => c = '.') with
  | [a] => digitRun a
  | [a, b] => (digitRun a && (b.isEmpty || digitRun b)) || (a.isEmpty && digitRun b)
  | _ => false

/-- Exponent part after `e`/`E`: optional sign, then a digit run. -/
def expOk (cs : List Char) : Bool :=
  match cs with
  | '+' :: rest => digitRun rest
  | '-' :: rest => digitRun rest
  | _ => digitRun cs

/-- A decimal float literal: mantissa with at most one `e`/`E` exponent. -/
def numericOk (cs : List Char) : Bool :=
  match cs.splitOnP (fun c => c = 'e' || c = 'E') with
  | [m] => mantissaOk m
  | [m, e] => mantissaOk m && expOk e
  | _ => false

/-- Acceptance after stripping whitespace: optional sign, then a named
value (`inf`, `infinity`, `nan`, case-insensitive) or a decimal literal. -/
def pyFloatCore (cs : List Char) : Bool :=
  let body := match cs with
    | '+' :: r => r
    | '-' :: r => r
    | _ => cs
  let low := body.map Char.toLower
  if low = "inf".toList || low = "infinity".toList || low = "nan".toList then
    true
  else
    numericOk body

/-- Whether Python's `float(s)` succeeds (rather than raising `ValueError`). -/
def pyFloatAccepts (s : String) : Bool :=
  pyFloatCore (pyStripL s.toList)

/-! ### `app/utils/ytdlp_helper.py` -/

/-- The progress fields `parse_progress_line` extracts.  `percent` carries
the token passed to Python's `float` (guarded by `pyFloatAccepts`); the
companion fields are the raw tokens following `of` / `at` / `ETA`. -/
structure ProgressInfo where
  percent : String
  totalSize : Option String
  speed : Option String
  eta : Option String
deriving DecidableEq, Repr

/-- `ytdlp_helper.parse_progress_line` (lines 102-143): `None` unless the
line contains `'[download]'` and `'%'`; tokenize on whitespace; the second
token with trailing `'%'` stripped must parse as a float, else the raised
`ValueError` is caught and `None` returned; optional companions looked up
positionally. -/
def parse_progress_line (line : String) : Option ProgressInfo :=
  if ¬ (strContains line "[download]" && strContains line "%") then none
  else
    let parts := pyWords line
    if parts.length < 2 then none
    else
      let percentStr := rstripPercent (parts.getD 1 "")
      if pyFloatAccepts percentStr then
        some { percent := percentStr
               totalSize := lookupAfter "of" parts
               speed := lookupAfter "at" parts
               eta := lookupAfter "ETA" parts }
      else none

/-- `ytdlp_helper.detect_stream_type` (lines 146-168): `None` unless the
line is a destination announcement; audio extensions (or the word
`audio`) are tested before video extensions (or the word `video`). -/
def detect_stream_type (line : String) : Option String :=
  if ¬ strContains line "[download] Destination:" then none
  else
    let ll := pyLower line
    if (strContains ll ".m4a" || strContains ll ".webm" || strContains ll ".opus")
        || strContains ll "audio" then some "audio"
    else if (strContains ll ".mp4" || strContains ll ".webm")
        || strContains ll "video" then some "video"
    else none

/-! ### Subprocess invocations and their timeout arguments

Each `subprocess.run` / `subprocess.Popen` call site of the download and
metadata paths, recorded as the command list plus the `timeout=` keyword
argument it passes (`none` when the call has no timeout and therefore
waits indefinitely). -/

/-- One subprocess invocation: argv plus the `timeout=` argument. -/
structure SubprocessCall where
  cmd : List String
  timeout : Option Nat
deriving DecidableEq, Repr

/-- The metadata `subprocess.run` in the synchronous `yt_download`
(`yt_download.py` lines 78-84): no `timeout=` argument. -/
def ytDownloadMetaCall (url : String) : SubprocessCall :=
  { cmd := ["yt-dlp", "-j", "--no-warnings", url], timeout := none }

/-- The metadata `subprocess.run` in `yt_download_streaming`
(`yt_download.py` lines 297-304): `timeout=30`. -/
def ytStreamingMetaCall (url : String) : SubprocessCall :=
  { cmd := ["yt-dlp", "-j", "--no-warnings", url], timeout := some 30 }

/-- The metadata `subprocess.run` in `ytdlp_helper.fetch_video_metadata`
(lines 34-54): `timeout=timeout` with declared default `30`. -/
def fetchVideoMetadataCall (url : String) (timeout : Nat := 30) : SubprocessCall :=
  { cmd := ["yt-dlp", "-j", "--no-warnings", url], timeout := some timeout }

/-- The download `subprocess.run` in the synchronous `yt_download`
(lines 52-67): no `timeout=` argument. -/
def ytDownloadRunCall (url outputTemplate : String) : SubprocessCall :=
  { cmd := ["yt-dlp", "-f", "bestvideo+bestaudio/best",
            "--merge-output-format", "mp4", "-o", outputTemplate, url]
    timeout := none }

/-- The download `subprocess.Popen` in `yt_download_streaming`
(lines 193-212): `Popen` takes no timeout — the process is only reaped by
an unbounded `process.wait()` (line 286). -/
def ytStreamingRunCall (url outputTemplate : String) : SubprocessCall :=
  { cmd := ["yt-dlp", "-f", "bestvideo+bestaudio/best",
            "--merge-output-format", "mp4", "--newline", "--progress",
            "-o", outputTemplate, url]
    timeout := none }

/-! ### `yt_download_streaming` — events and the per-line loop

An SSE event as yielded by `send_event` before serialization: the event
type together with the payload fields the source puts in the dict.
Payload members that depend on the filesystem or on raw metadata
(`file`, `yt_data`, `tool_versions`, base64 bytes) are abstracted to
presence booleans; `stream_type: None` is serialized as JSON `null`. -/
inductive SEvent where
  | info (status : String) (streamType : Option String) (message : String)
  | progress (percent : String) (streamType : Option String)
      (totalSize speed eta : Option String)
  | error (message : String)
  | complete (status : String) (message : String) (hasFile hasYtData : Bool)
deriving DecidableEq, Repr

/-- The inline stream-kind heuristics of `yt_download_streaming`
(lines 229-232): audio list `['.m4a', '.webm', '.opus', 'audio']` tested
before video list `['.mp4', '.webm', 'video']`, on the lowercased line. -/
def inlineDetect (ll : String) : Option String :=
  if strContains ll ".m4a" || strContains ll ".webm" || strContains ll ".opus"
      || strContains ll "audio" then some "audio"
  else if strContains ll ".mp4" || strContains ll ".webm"
      || strContains ll "video" then some "video"
  else none

/-- The destination-announcement block of the loop (lines 224-241): on a
`'[download] Destination:'` line, run the heuristics; when a kind is found
and differs from `current_stream_type`, update it and yield one
informational event. -/
def kindStep (s : Option String) (line : String) : Option String × List SEvent :=
  if strContains line "[download] Destination:" then
    match inlineDetect (pyLower line) with
    | some k =>
        if some k ≠ s then
          (some k, [SEvent.info "downloading" (some k) ("Downloading " ++ k ++ "...")])
        else (s, [])
    | none => (s, [])
  else (s, [])

/-- One iteration of the streaming loop body (lines 217-283): strip the
line; maybe update the stream kind (emitting one info event); then either
the progress branch (`'[download]' in line and '%' in line`, lines
244-276, whose `float` failure is swallowed) or — only as its `elif` —
the merging branch (lines 279-283). -/
def procLine (s : Option String) (rawLine : String) : Option String × List SEvent :=
  let line := pyStrip rawLine
  let st := kindStep s line
  if strContains line "[download]" && strContains line "%" then
    let parts := pyWords line
    if parts.length ≥ 2 then
      let percentStr := rstripPercent (parts.getD 1 "")
      if pyFloatAccepts percentStr then
        (st.1, st.2 ++ [SEvent.progress percentStr st.1 (lookupAfter "of" parts)
            (lookupAfter "at" parts) (lookupAfter "ETA" parts)])
      else (st.1, st.2)
    else (st.1, st.2)
  else if strContains line "[Merger]" || strContains line "Merging" then
    (st.1, st.2 ++ [SEvent.info "merging" none "Merging video and audio..."])
  else (st.1, st.2)

/-- The whole `for line in iter(process.stdout.readline, '')` loop,
threading `current_stream_type` and concatenating the yielded events. -/
def procLines : Option String → List String → Option String × List SEvent
  | s, [] => (s, [])
  | s, l :: rest =>
      let p := procLine s l
      let q := procLines p.1 rest
      (q.1, p.2 ++ q.2)

/-- `current_stream_type: Optional[str] = None` (line 214). -/
def initialStreamType : Option String := none

/-! ### The external world of one download request

Everything the two download functions observe from outside: the URL
predicate, the tool check, the download subprocess (its output lines, exit
code and captured stderr), and the metadata subprocess (a possible raised
exception such as `subprocess.TimeoutExpired`, its exit code, whether its
stdout parses as JSON).  One record serves both delivery paths. -/
structure World where
  urlValid : Bool
  missingTools : List String
  lines : List String
  exitCode : Int
  dlStderr : String
  metaRaises : Option String
  metaExit : Int
  metaParses : Bool
  metaParseErr : String
deriving DecidableEq, Repr

/-- The terminal `complete` event of the streaming path after a zero exit
(lines 295-352): a raised exception (timeout, or the `json.loads` failure
raised inside the same `try`) is caught and still yields `complete` with a
note; a nonzero metadata exit yields `complete` with "(metadata
unavailable)"; otherwise the full success payload with file and metadata. -/
def streamingMetaComplete (w : World) : SEvent :=
  match w.metaRaises with
  | some m =>
      SEvent.complete "success"
        ("Video downloaded successfully (metadata error: " ++ m ++ ").") false false
  | none =>
      if w.metaExit ≠ 0 then
        SEvent.complete "success"
          "Video downloaded successfully (metadata unavailable)." false false
      else if ¬ w.metaParses then
        SEvent.complete "success"
          ("Video downloaded successfully (metadata error: " ++ w.metaParseErr ++ ").") false false
      else
        SEvent.complete "success" "Video downloaded successfully." true true

/-- `yt_download_streaming` (lines 143-358) as the list of events it
yields: URL validation, tool check, the starting info event, the line
loop, then the exit-code check and the metadata stage. -/
def yt_download_streaming (w : World) : List SEvent :=
  if ¬ w.urlValid then [SEvent.error "Invalid YouTube URL provided."]
  else if ¬ w.missingTools.isEmpty then
    [SEvent.error ("Missing required tool(s): " ++ String.intercalate ", " w.missingTools)]
  else
    SEvent.info "starting" none "Initializing download..." ::
    (procLines initialStreamType w.lines).2 ++
    (if w.exitCode ≠ 0 then
      [SEvent.error "Download failed. Check if the URL is valid and accessible."]
    else [streamingMetaComplete w])

/-! ### The synchronous `yt_download` -/

/-- The synchronous JSON result, restricted to the modelled fields:
`status`, `message`, and presence of the `file` / `yt_data` members. -/
structure SyncResult where
  status : String
  message : String
  hasFile : Bool
  hasYtData : Bool
deriving DecidableEq, Repr

/-- `yt_download` (lines 11-140): invalid URL and missing tools
short-circuit; a nonzero download exit is an error with the captured
stderr; then — unlike the streaming path — a metadata failure of any kind
(raised exception caught by the outer `except Exception`, nonzero exit at
lines 86-92, or `json.JSONDecodeError` at lines 128-133) makes the whole
result an error. -/
def yt_download (w : World) : SyncResult :=
  if ¬ w.urlValid then
    { status := "error", message := "Invalid YouTube URL provided."
      hasFile := false, hasYtData := false }
  else if ¬ w.missingTools.isEmpty then
    { status := "error"
      message := "Missing required tool(s): " ++ String.intercalate ", " w.missingTools
        ++ ". Please install them before using this endpoint."
      hasFile := false, hasYtData := false }
  else if w.exitCode ≠ 0 then
    { status := "error", message := "Download failed: " ++ w.dlStderr
      hasFile := false, hasYtData := false }
  else
    match w.metaRaises with
    | some m =>
        { status := "error", message := "Unexpected error: " ++ m
          hasFile := false, hasYtData := false }
    | none =>
        if w.metaExit ≠ 0 then
          { status := "error", message := "Video downloaded, but failed to retrieve metadata."
            hasFile := false, hasYtData := false }
        else if ¬ w.metaParses then
          { status := "error", message := "Failed to parse metadata from yt-dlp output."
            hasFile := false, hasYtData := false }
        else
          { status := "success", message := "Video downloaded successfully."
            hasFile := true, hasYtData := true }

/-! ### A model of `json.dumps` with its default options

`send_event` (`yt_download.py` line 157) and
`sse_helper.format_sse_event` (line 19) serialize the payload dict with
`json.dumps(data)` — default options, so: separators `", "` and `": "`,
and `ensure_ascii=True`, which leaves only printable ASCII (except `"`
and `\`) unescaped and renders every other character as a short escape or
a `\uXXXX` escape (a lowercase-hex surrogate pair beyond the BMP).
Payload values are JSON values; numbers are modelled as integers. -/
inductive Json where
  | null
  | bool (b : Bool)
  | num (n : Int)
  | str (s : String)
  | arr (elems : List Json)
  | obj (fields : List (String × Json))
deriving BEq, Repr

/-- Lowercase hexadecimal digit. -/
def hexDigitChar (n : Nat) : Char :=
  if n < 10 then Char.ofNat (48 + n) else Char.ofNat (87 + n)

/-- Four lowercase hex digits, the body of a `\uXXXX` escape. -/
def hex4Chars (n : Nat) : List Char :=
  [hexDigitChar (n / 4096 % 16), hexDigitChar (n / 256 % 16),
   hexDigitChar (n / 16 % 16), hexDigitChar (n % 16)]

/-- How `json.dumps` (with `ensure_ascii=True`) renders one character of
a string value. -/
def jEscChar (c : Char) : List Char :=
  if c = '"' then ['\\', '"']
  else if c = '\\' then ['\\', '\\']
  else if c = '\n' then ['\\', 'n']
  else if c = '\r' then ['\\', 'r']
  else if c = '\t' then ['\\', 't']
  else if c = Char.ofNat 8 then ['\\', 'b']
  else if c = Char.ofNat 12 then ['\\', 'f']
  else if c.toNat < 32 then '\\' :: 'u' :: hex4Chars c.toNat
  else if c.toNat < 127 then [c]
  else if c.toNat < 65536 then '\\' :: 'u' :: hex4Chars c.toNat
  else
    ('\\' :: 'u' :: hex4Chars (55296 + (c.toNat - 65536) / 1024)) ++
    ('\\' :: 'u' :: hex4Chars (56320 + (c.toNat - 65536) % 1024))

/-- String-body rendering: each character escaped as needed. -/
def jEscList (cs : List Char) : List Char := (cs.map jEscChar).flatten

/-- Decimal digits of a natural number (`"0"` for zero). -/
def natChars (n : Nat) : List Char :=
  if n = 0 then ['0']
  else ((Nat.digits 10 n).map (fun d => Char.ofNat (48 + d))).reverse

/-- How Python prints an `int` inside JSON. -/
def intChars : Int → List Char
  | Int.ofNat n => natChars n
  | Int.negSucc m => '-' :: natChars (m + 1)

/-- A rendered string value: quotes around the escaped body. -/
def jStrChars (s : String) : List Char := '"' :: jEscList s.toList ++ ['"']

/-- The keyword spelled for the JSON constant `null`. -/
def kwNull : List Char := ['n', 'u', 'l', 'l']

/-- The keyword spelled for the JSON constant `true`. -/
def kwTrue : List Char := ['t', 'r', 'u', 'e']

/-- The keyword spelled for the JSON constant `false`. -/
def kwFalse : List Char := ['f', 'a', 'l', 's', 'e']

mutual

/-- `json.dumps` rendering of a value, as a char list. -/
def jser : Json → List Char
  | .num n => intChars n
  | .str s => jStrChars s
  | .arr es => '[' :: jserElems es ++ [']']
  | .obj fs => '{' :: jserFields fs ++ ['}']
  | .null => kwNull
  | .bool true => kwTrue
  | .bool false => kwFalse

/-- Array elements joined by the default `", "` separator. -/
def jserElems : List Json → List Char
  | [] => []
  | [e] => jser e
  | e :: rest => jser e ++ ',' :: ' ' :: jserElems rest

/-- Object members `"key": value` joined by `", "`. -/
def jserFields : List (String × Json) → List Char
  | [] => []
  | [f] => jStrChars f.1 ++ ':' :: ' ' :: jser f.2
  | f :: rest => jStrChars f.1 ++ ':' :: ' ' :: jser f.2 ++ ',' :: ' ' :: jserFields rest

end

/-- `json.dumps(data)` as a `String`. -/
def jdumps (v : Json) : String := ⟨jser v⟩

/-- `sse_helper.format_sse_event` (line 19) and the local `send_event` of
`yt_download_streaming` (lines 155-157), which build the identical
f-string: the SSE frame with the JSON payload on its single data line. -/
def format_sse_event (eventType : String) (data : Json) : String :=
  "event: " ++ eventType ++ "\ndata: " ++ jdumps data ++ "\n\n"

/-! ### Decoding the frame

A decoder for the framing the encoder produces: SSE field extraction
(`event:` line, single `data:` line, blank-line terminator) followed by a
JSON parser.  The parser is strict — it accepts the canonical grammar
`json.dumps` emits (including both halves of a surrogate-pair escape) —
and total via a fuel argument; `sseDecode` supplies ample fuel. -/

/-- Hex digit value, either case. -/
def hexVal (c : Char) : Option Nat :=
  if '0' ≤ c ∧ c ≤ '9' then some (c.toNat - 48)
  else if 'a' ≤ c ∧ c ≤ 'f' then some (c.toNat - 87)
  else if 'A' ≤ c ∧ c ≤ 'F' then some (c.toNat - 55)
  else none

/-- Prepend a character to the string being accumulated by `jparseStrAux`. -/
def consFst (c : Char) : Option (List Char × List Char) → Option (List Char × List Char)
  | some p => some (c :: p.1, p.2)
  | none => none

mutual

/-- Parse a JSON string body after the opening quote, decoding escapes and
recombining surrogate pairs (via `jparseLowSurr`); returns the decoded
characters and the input after the closing quote. -/
def jparseStrAux : List Char → Option (List Char × List Char)
  | [] => none
  | '"' :: rest => some ([], rest)
  | '\\' :: 'u' :: a :: b :: c :: d :: rest =>
    (match hexVal a, hexVal b, hexVal c, hexVal d with
     | some ha, some hb, some hc, some hd =>
       let m := ha * 4096 + hb * 256 + hc * 16 + hd
       if 55296 ≤ m ∧ m < 56320 then jparseLowSurr m rest
       else if 56320 ≤ m ∧ m < 57344 then none
       else consFst (Char.ofNat m) (jparseStrAux rest)
     | _, _, _, _ => none)
  | '\\' :: '"' :: rest => consFst '"' (jparseStrAux rest)
  | '\\' :: '\\' :: rest => consFst '\\' (jparseStrAux rest)
  | '\\' :: '/' :: rest => consFst '/' (jparseStrAux rest)
  | '\\' :: 'n' :: rest => consFst '\n' (jparseStrAux rest)
  | '\\' :: 'r' :: rest => consFst '\r' (jparseStrAux rest)
  | '\\' :: 't' :: rest => consFst '\t' (jparseStrAux rest)
  | '\\' :: 'b' :: rest => consFst (Char.ofNat 8) (jparseStrAux rest)
  | '\\' :: 'f' :: rest => consFst (Char.ofNat 12) (jparseStrAux rest)
  | '\\' :: _ :: _ => none
  | ['\\'] => none
  | c :: rest => consFst c (jparseStrAux rest)

/-- After a high-surrogate `\uXXXX`, the continuation must be the matching
low-surrogate escape; the pair is recombined into one scalar value. -/
def jparseLowSurr (m : Nat) : List Char → Option (List Char × List Char)
  | '\\' :: 'u' :: a :: b :: c :: d :: rest =>
    (match hexVal a, hexVal b, hexVal c, hexVal d with
     | some ha, some hb, some hc, some hd =>
       let m2 := ha * 4096 + hb * 256 + hc * 16 + hd
       if 56320 ≤ m2 ∧ m2 < 57344 then
         consFst (Char.ofNat (65536 + (m - 55296) * 1024 + (m2 - 56320)))
           (jparseStrAux rest)
       else none
     | _, _, _, _ => none)
  | _ => none

end

/-- Parse a nonempty run of decimal digits into its value. -/
def jparseNat (cs : List Char) : Option (Nat × List Char) :=
  let ds := cs.takeWhile (fun c => c.isDigit)
  if ds.isEmpty then none
  else some (ds.foldl (fun a c => 10 * a + (c.toNat - 48)) 0,
             cs.dropWhile (fun c => c.isDigit))

mutual

/-- Parse one JSON value (strict canonical grammar, fuel-bounded). -/
def jparseVal : Nat → List Char → Option (Json × List Char)
  | 0, _ => none
  | _ + 1, 'n' :: 'u' :: 'l' :: 'l' :: r => some (.null, r)
  | _ + 1, 't' :: 'r' :: 'u' :: 'e' :: r => some (.bool true, r)
  | _ + 1, 'f' :: 'a' :: 'l' :: 's' :: 'e' :: r => some (.bool false, r)
  | _ + 1, '"' :: r =>
    (match jparseStrAux r with
     | some (body, r2) => some (.str (⟨body⟩ : String), r2)
     | none => none)
  | _ + 1, '[' :: ']' :: r => some (.arr [], r)
  | f + 1, '[' :: r =>
    (match jparseElems f r with
     | some (es, r2) => some (.arr es, r2)
     | none => none)
  | _ + 1, '{' :: '}' :: r => some (.obj [], r)
  | f + 1, '{' :: r =>
    (match jparseFields f r with
     | some (fs, r2) => some (.obj fs, r2)
     | none => none)
  | _ + 1, '-' :: r =>
    (match jparseNat r with
     | some (n, r2) => some (.num (-(n : Int)), r2)
     | none => none)
  | _ + 1, c :: r =>
    if c.isDigit then
      match jparseNat (c :: r) with
      | some (n, r2) => some (.num (n : Int), r2)
      | none => none
    else none
  | _ + 1, [] => none

/-- Parse `", "`-separated array elements up to and including the `]`. -/
def jparseElems : Nat → List Char → Option (List Json × List Char)
  | 0, _ => none
  | f + 1, cs =>
    match jparseVal f cs with
    | some (v, r) =>
      (match r with
       | [] => none
       | r0 :: rr =>
         if r0 = ']' then some ([v], rr)
         else if r0 = ',' then
           match rr with
           | [] => none
           | r1 :: r2 =>
             if r1 = ' ' then
               match jparseElems f r2 with
               | some (vs, r3) => some (v :: vs, r3)
               | none => none
             else none
         else none)
    | none => none

/-- Parse `", "`-separated `"key": value` members up to and including the
closing brace. -/
def jparseFields : Nat → List Char → Option (List (String × Json) × List Char)
  | 0, _ => none
  | f + 1, '"' :: cs =>
    (match jparseStrAux cs with
     | some (key, r1) =>
       (match r1 with
        | [] => none
        | c0 :: cr =>
          if c0 = ':' then
            match cr with
            | [] => none
            | c1 :: r2 =>
              if c1 = ' ' then
                match jparseVal f r2 with
                | some (v, r3) =>
                  (match r3 with
                   | [] => none
                   | d0 :: dr =>
                     if d0 = '}' then some ([((⟨key⟩ : String), v)], dr)
                     else if d0 = ',' then
                       match dr with
                       | [] => none
                       | d1 :: r4 =>
                         if d1 = ' ' then
                           match jparseFields f r4 with
                           | some (fs, r5) => some (((⟨key⟩ : String), v) :: fs, r5)
                           | none => none
                         else none
                     else none)
                | none => none
              else none
          else none)
     | none => none)
  | _ + 1, _ => none

end

/-- Strip an expected literal prefix. -/
def stripPre : List Char → List Char → Option (List Char)
  | [], cs => some cs
  | _ :: _, [] => none
  | p :: ps, c :: cs => if p = c then stripPre ps cs else none

/-- A conformant decode of one SSE frame as produced by
`format_sse_event`: read the `event:` field up to the newline, the single
`data:` line, require the blank-line terminator, and parse the data as
JSON (with fuel amply above the parser's needs for any input it accepts). -/
def sseDecode (frame : String) : Option (String × Json) :=
  match stripPre "event: ".toList frame.toList with
  | none => none
  | some r1 =>
    let t := r1.takeWhile (fun c => c ≠ '\n')
    match stripPre ('\n' :: "data: ".toList) (r1.dropWhile (fun c => c ≠ '\n')) with
    | none => none
    | some r2 =>
      let d := r2.takeWhile (fun c => c ≠ '\n')
      match r2.dropWhile (fun c => c ≠ '\n') with
      | '\n' :: '\n' :: [] =>
        match jparseVal (3 * d.length + 1) d with
        | some (v, []) => some ((⟨t⟩ : String), v)
        | _ => none
      | _ => none

/-! ### `app/main.py` — the `do_GET` dispatch for the two endpoints

The response facts a claim can observe: HTTP status code, the written
body, and how many subprocesses the request caused.  The present-`url`
branches delegate to the route models; their JSON bodies are restricted
to the modelled fields. -/

/-- A response body as written by `do_GET`. -/
inductive RespBody where
  | json (j : Json)
  | sse (events : List SEvent)
  | fileBytes
deriving BEq, Repr

/-- Status code, body, and the number of subprocess invocations the
request triggered. -/
structure GetResponse where
  httpStatus : Nat
  body : RespBody
  spawned : Nat
deriving BEq, Repr

/-- Subprocesses spawned by the synchronous `yt_download` path: none
before validation; the two `check_tool_exists` probes; then the two
`get_tool_version` probes, the download itself, and — only after a zero
exit — the metadata fetch. -/
def spawnsSync (w : World) : Nat :=
  if ¬ w.urlValid then 0
  else if ¬ w.missingTools.isEmpty then 2
  else if w.exitCode ≠ 0 then 5
  else 6

/-- Subprocesses spawned by `yt_download_streaming`, same structure. -/
def spawnsStreaming (w : World) : Nat :=
  if ¬ w.urlValid then 0
  else if ¬ w.missingTools.isEmpty then 2
  else if w.exitCode ≠ 0 then 5
  else 6

/-- Restricted JSON projection of a synchronous result (the modelled
`status` / `message` members of the response dict). -/
def syncResultJson (r : SyncResult) : Json :=
  .obj [("status", .str r.status), ("message", .str r.message)]

/-- What `yt_details` observes of the world (`yt_details.py`): the URL
predicate, the tool check, whether `run_shell_command` reported an error
string, and whether its output parsed as JSON. -/
structure DetailsWorld where
  urlValid : Bool
  missingTools : List String
  shellError : Bool
  jsonParses : Bool
deriving DecidableEq, Repr

/-- `yt_details` outcome, restricted to the `status` member. -/
def yt_details (w : DetailsWorld) : String :=
  if ¬ w.urlValid then "error"
  else if ¬ w.missingTools.isEmpty then "error"
  else if w.shellError then "error"
  else if ¬ w.jsonParses then "error"
  else "success"

/-- Subprocesses spawned by `yt_details`: tool probes, versions, one
shell invocation. -/
def spawnsDetails (w : DetailsWorld) : Nat :=
  if ¬ w.urlValid then 0
  else if ¬ w.missingTools.isEmpty then 2
  else 5

/-- `do_GET` on `/yt_download` (`main.py` lines 58-108): a missing `url`
returns 400 with `json.dumps({"status": "error", "message": "Missing
'url' query parameter."})` before anything can spawn; otherwise the
streaming or synchronous route runs (the binary branch returns the raw
file when requested, the download succeeded and the file exists). -/
def doGET_yt_download (url : Option String) (stream binary : Bool)
    (fileExists : Bool) (w : World) : GetResponse :=
  match url with
  | none =>
      { httpStatus := 400
        body := .json (.obj [("status", .str "error"),
                             ("message", .str "Missing 'url' query parameter.")])
        spawned := 0 }
  | some _ =>
      if stream then
        { httpStatus := 200, body := .sse (yt_download_streaming w)
          spawned := spawnsStreaming w }
      else
        let r := yt_download w
        if binary && (r.status = "success") && fileExists then
          { httpStatus := 200, body := .fileBytes, spawned := spawnsSync w }
        else
          { httpStatus := if r.status = "success" then 200 else 400
            body := .json (syncResultJson r), spawned := spawnsSync w }

/-- `do_GET` on `/yt_details` (`main.py` lines 26-34): a missing `url`
returns 400 with `json.dumps({"error": "Missing 'url' parameter"})`;
otherwise the details route runs and is always written with status 200. -/
def doGET_yt_details (url : Option String) (w : DetailsWorld) : GetResponse :=
  match url with
  | none =>
      { httpStatus := 400
        body := .json (.obj [("error", .str "Missing 'url' parameter")])
        spawned := 0 }
  | some _ =>
      { httpStatus := 200
        body := .json (.obj [("status", .str (yt_details w))])
        spawned := spawnsDetails w }

/-! ### Event classifiers and counters -/

/-- Is this a `complete` event? -/
def isCompleteEv : SEvent → Bool
  | .complete _ _ _ _ => true
  | _ => false

/-- Is this an `error` event? -/
def isErrorEv : SEvent → Bool
  | .error _ => true
  | _ => false

/-- Is this a `progress` event? -/
def isProgressEv : SEvent → Bool
  | .progress _ _ _ _ _ => true
  | _ => false

/-- Is this the informational stream-kind event (status `downloading`)? -/
def isKindInfoEv : SEvent → Bool
  | .info st _ _ => st = "downloading"
  | _ => false

/-- Is this the informational merging event (status `merging`)? -/
def isMergeInfoEv : SEvent → Bool
  | .info st _ _ => st = "merging"
  | _ => false

/-- The `stream_type` member an event carries (for events that have one). -/
def evStreamType : SEvent → Option String
  | .info _ st _ => st
  | .progress _ st _ _ _ => st
  | _ => none

/-- Number of events satisfying a classifier. -/
def countEv (p : SEvent → Bool) (evs : List SEvent) : Nat :=
  (evs.filter p).length

/-! ### Size measure for the JSON parser's fuel -/

mutual

/-- Fuel needed by `jparseVal` on a rendered value. -/
def jsize : Json → Nat
  | .null => 1
  | .bool _ => 1
  | .num _ => 1
  | .str _ => 1
  | .arr es => 1 + jsizeElems es
  | .obj fs => 1 + jsizeFields fs

/-- Fuel needed by `jparseElems` on rendered elements. -/
def jsizeElems : List Json → Nat
  | [] => 1
  | e :: rest => 1 + jsize e + jsizeElems rest

/-- Fuel needed by `jparseFields` on rendered members. -/
def jsizeFields : List (String × Json) → Nat
  | [] => 1
  | f :: rest => 1 + jsize f.2 + jsizeFields rest

end

/-- Guard for number parsing: the trailing context must not begin with a
digit (inside rendered JSON it begins with `,`, `]`, `}` or is empty). -/
def nonDigitHead : List Char → Bool
  | [] => true
  | c :: _ => ¬ c.isDigit

/-! ## Theorems -/

/-! ### Generic counting lemmas -/

theorem countEv_append (p : SEvent → Bool) (a b : List SEvent) :
    countEv p (a ++ b) = countEv p a + countEv p b := by
  simp [countEv, List.filter_append]

theorem countEv_nil (p : SEvent → Bool) : countEv p [] = 0 := rfl

/-! ### Structure of `kindStep` and `procLine` -/

/-- `kindStep` either leaves the state alone with no event, or switches to
a newly detected kind with exactly one `downloading` info event. -/
theorem kindStep_cases (s : Option String) (line : String) :
    kindStep s line = (s, []) ∨
    ∃ k, inlineDetect (pyLower line) = some k ∧ some k ≠ s ∧
      kindStep s line =
        (some k, [SEvent.info "downloading" (some k) ("Downloading " ++ k ++ "...")]) := by
  unfold kindStep
  split
  · cases hdet : inlineDetect (pyLower line) with
    | none => exact Or.inl rfl
    | some k =>
        by_cases hne : some k ≠ s
        · exact Or.inr ⟨k, rfl, hne, by simp [hne]⟩
        · left
          simp only [not_not] at hne
          simp [hne]
  · exact Or.inl rfl

theorem kindStep_not_merge (s : Option String) (line : String) :
    countEv isMergeInfoEv (kindStep s line).2 = 0 := by
  rcases kindStep_cases s line with h | ⟨k, _, _, h⟩ <;>
    simp [h, countEv, isMergeInfoEv]

theorem kindStep_not_progress (s : Option String) (line : String) :
    countEv isProgressEv (kindStep s line).2 = 0 := by
  rcases kindStep_cases s line with h | ⟨k, _, _, h⟩ <;>
    simp [h, countEv, isProgressEv]

theorem kindStep_not_terminal (s : Option String) (line : String) :
    countEv isCompleteEv (kindStep s line).2 = 0 ∧
    countEv isErrorEv (kindStep s line).2 = 0 := by
  rcases kindStep_cases s line with h | ⟨k, _, _, h⟩ <;>
    simp [h, countEv, isCompleteEv, isErrorEv]


/-- `procLine` keeps `kindStep`'s state and appends at most one further
event: nothing, one progress event carrying that state, or the merging
info event. -/
theorem procLine_cases (s : Option String) (l : String) :
    (procLine s l).1 = (kindStep s (pyStrip l)).1 ∧
    ((procLine s l).2 = (kindStep s (pyStrip l)).2 ∨
     (∃ pe, isProgressEv pe = true ∧ evStreamType pe = (kindStep s (pyStrip l)).1 ∧
        (procLine s l).2 = (kindStep s (pyStrip l)).2 ++ [pe]) ∨
     (procLine s l).2 = (kindStep s (pyStrip l)).2 ++
        [SEvent.info "merging" none "Merging video and audio..."]) := by
  simp only [procLine]
  cases hA : strContains (pyStrip l) "[download]" && strContains (pyStrip l) "%" with
  | true =>
      simp only [hA, if_true]
      by_cases hB : (pyWords (pyStrip l)).length ≥ 2
      · simp only [if_pos hB]
        cases hC : pyFloatAccepts (rstripPercent ((pyWords (pyStrip l)).getD 1 "")) with
        | true =>
            simp only [hC, if_true]
            refine ⟨trivial, Or.inr (Or.inl ⟨_, ?_, ?_, rfl⟩)⟩ <;> rfl
        | false =>
            simp only [hC, Bool.false_eq_true, if_false]
            exact ⟨trivial, Or.inl trivial⟩
      · simp only [if_neg hB]; exact ⟨trivial, Or.inl trivial⟩
  | false =>
      simp only [hA, Bool.false_eq_true, if_false]
      cases hD : strContains (pyStrip l) "[Merger]" || strContains (pyStrip l) "Merging" with
      | true => simp only [hD, if_true]; exact ⟨trivial, Or.inr (Or.inr trivial)⟩
      | false =>
          simp only [hD, Bool.false_eq_true, if_false]
          exact ⟨trivial, Or.inl trivial⟩

/-- A line on which the progress test did not fire but a merge marker is
present yields exactly one merging info event. -/
theorem procLine_merge_one (s : Option String) (l : String)
    (h1 : (strContains (pyStrip l) "[download]" && strContains (pyStrip l) "%") = false)
    (h2 : (strContains (pyStrip l) "[Merger]" || strContains (pyStrip l) "Merging") = true) :
    countEv isMergeInfoEv (procLine s l).2 = 1 := by
  have hk := kindStep_not_merge s (pyStrip l)
  simp only [procLine, h1, h2, Bool.false_eq_true, if_false, if_true]
  rw [countEv_append, hk]
  rfl

/-- A line on which the progress test fired never yields a merging info
event — the progress branch short-circuits the merge branch. -/
theorem procLine_merge_zero_progress (s : Option String) (l : String)
    (h1 : (strContains (pyStrip l) "[download]" && strContains (pyStrip l) "%") = true) :
    countEv isMergeInfoEv (procLine s l).2 = 0 := by
  have hk := kindStep_not_merge s (pyStrip l)
  simp only [procLine, h1, if_true]
  by_cases hB : (pyWords (pyStrip l)).length ≥ 2
  · simp only [if_pos hB]
    cases hC : pyFloatAccepts (rstripPercent ((pyWords (pyStrip l)).getD 1 "")) with
    | true =>
        simp only [hC, if_true]
        rw [countEv_append, hk]
        rfl
    | false => simp only [hC, Bool.false_eq_true, if_false]; exact hk
  · simp only [if_neg hB]; exact hk

/-- A line without a merge marker yields no merging info event. -/
theorem procLine_merge_zero_nomarker (s : Option String) (l : String)
    (h2 : (strContains (pyStrip l) "[Merger]" || strContains (pyStrip l) "Merging") = false) :
    countEv isMergeInfoEv (procLine s l).2 = 0 := by
  have hk := kindStep_not_merge s (pyStrip l)
  simp only [procLine, h2, Bool.false_eq_true, if_false]
  cases hA : strContains (pyStrip l) "[download]" && strContains (pyStrip l) "%" with
  | true =>
      simp only [hA, if_true]
      by_cases hB : (pyWords (pyStrip l)).length ≥ 2
      · simp only [if_pos hB]
        cases hC : pyFloatAccepts (rstripPercent ((pyWords (pyStrip l)).getD 1 "")) with
        | true =>
            simp only [hC, if_true]
            rw [countEv_append, hk]
            rfl
        | false => simp only [hC, Bool.false_eq_true, if_false]; exact hk
      · simp only [if_neg hB]; exact hk
  | false => simp only [hA, Bool.false_eq_true, if_false]; exact hk

/-- A line passing the full progress branch yields exactly one progress
event. -/
theorem procLine_progress_one (s : Option String) (l : String)
    (h1 : (strContains (pyStrip l) "[download]" && strContains (pyStrip l) "%") = true)
    (h2 : 2 ≤ (pyWords (pyStrip l)).length)
    (h3 : pyFloatAccepts (rstripPercent ((pyWords (pyStrip l)).getD 1 "")) = true) :
    countEv isProgressEv (procLine s l).2 = 1 ∧
    SEvent.progress (rstripPercent ((pyWords (pyStrip l)).getD 1 ""))
      (kindStep s (pyStrip l)).1
      (lookupAfter "of" (pyWords (pyStrip l)))
      (lookupAfter "at" (pyWords (pyStrip l)))
      (lookupAfter "ETA" (pyWords (pyStrip l))) ∈ (procLine s l).2 := by
  have hk := kindStep_not_progress s (pyStrip l)
  simp only [procLine, h1, h3, if_true, if_pos h2]
  constructor
  · rw [countEv_append, hk]
    rfl
  · simp

/-- A line failing any part of the progress test yields no progress
event. -/
theorem procLine_progress_zero (s : Option String) (l : String)
    (h : ¬ ((strContains (pyStrip l) "[download]" && strContains (pyStrip l) "%") = true
        ∧ 2 ≤ (pyWords (pyStrip l)).length
        ∧ pyFloatAccepts (rstripPercent ((pyWords (pyStrip l)).getD 1 "")) = true)) :
    countEv isProgressEv (procLine s l).2 = 0 := by
  have hk := kindStep_not_progress s (pyStrip l)
  simp only [procLine]
  cases hA : strContains (pyStrip l) "[download]" && strContains (pyStrip l) "%" with
  | true =>
      simp only [hA, if_true]
      by_cases hB : (pyWords (pyStrip l)).length ≥ 2
      · simp only [if_pos hB]
        cases hC : pyFloatAccepts (rstripPercent ((pyWords (pyStrip l)).getD 1 "")) with
        | true => exact absurd ⟨hA, hB, hC⟩ h
        | false => simp only [hC, Bool.false_eq_true, if_false]; exact hk
      · simp only [if_neg hB]; exact hk
  | false =>
      simp only [hA, Bool.false_eq_true, if_false]
      cases hD : strContains (pyStrip l) "[Merger]" || strContains (pyStrip l) "Merging" with
      | true =>
          simp only [hD, if_true]
          rw [countEv_append, hk]
          rfl
      | false => simp only [hD, Bool.false_eq_true, if_false]; exact hk

/-- The line loop never yields `complete` or `error` events. -/
theorem procLine_not_terminal (s : Option String) (l : String) :
    countEv isCompleteEv (procLine s l).2 = 0 ∧
    countEv isErrorEv (procLine s l).2 = 0 := by
  have hk := kindStep_not_terminal s (pyStrip l)
  rcases procLine_cases s l with ⟨_, h | ⟨pe, hpe, _, h⟩ | h⟩
  · rw [h]; exact hk
  · rw [h, countEv_append, countEv_append, hk.1, hk.2]
    cases pe <;> simp_all [isProgressEv, countEv, isCompleteEv, isErrorEv]
  · rw [h, countEv_append, countEv_append, hk.1, hk.2]
    exact ⟨rfl, rfl⟩

/-- Lifting `procLine_not_terminal` over the whole loop. -/
theorem procLines_not_terminal (ls : List String) : ∀ (s : Option String),
    countEv isCompleteEv (procLines s ls).2 = 0 ∧
    countEv isErrorEv (procLines s ls).2 = 0 := by
  induction ls with
  | nil => intro s; exact ⟨rfl, rfl⟩
  | cons l rest ih =>
      intro s
      simp only [procLines, countEv_append]
      have h1 := procLine_not_terminal s l
      have h2 := ih (procLine s l).1
      omega

/-- Without a destination marker, `kindStep` is inert. -/
theorem kindStep_no_dest (s : Option String) (line : String)
    (h : strContains line "[download] Destination:" = false) :
    kindStep s line = (s, []) := by
  simp [kindStep, h]

/-- Without a destination marker, a line leaves the stream kind unchanged
and any progress event it yields carries exactly that kind. -/
theorem procLine_no_dest (s : Option String) (l : String)
    (h : strContains (pyStrip l) "[download] Destination:" = false) :
    (procLine s l).1 = s ∧
    (∀ e ∈ (procLine s l).2, isProgressEv e = true → evStreamType e = s) := by
  have hks := kindStep_no_dest s (pyStrip l) h
  rcases procLine_cases s l with ⟨h1, h2 | ⟨pe, hpe, hst, h2⟩ | h2⟩
  · exact ⟨by rw [h1, hks], by intro e he _; rw [h2, hks] at he; simp at he⟩
  · refine ⟨by rw [h1, hks], ?_⟩
    intro e he _
    rw [h2, hks] at he
    simp at he
    rw [he, hst, hks]
  · refine ⟨by rw [h1, hks], ?_⟩
    intro e he hp
    rw [h2, hks] at he
    simp at he
    rw [he] at hp
    simp [isProgressEv] at hp

/-- Over a run in which no line announces a destination, the stream kind
stays unset, every progress event carries the unset kind, and each line's
events all appear in the loop's output. -/
theorem procLines_no_dest (ls : List String)
    (h : ∀ l ∈ ls, strContains (pyStrip l) "[download] Destination:" = false) :
    (procLines none ls).1 = none ∧
    (∀ e ∈ (procLines none ls).2, isProgressEv e = true → evStreamType e = none) ∧
    (∀ l ∈ ls, ∀ e ∈ (procLine none l).2, e ∈ (procLines none ls).2) := by
  induction ls with
  | nil => exact ⟨rfl, by intro e he; simp [procLines] at he, by intro l hl; simp at hl⟩
  | cons l rest ih =>
      have hl := h l (by simp)
      have hrest := ih (fun x hx => h x (by simp [hx]))
      have hstate := (procLine_no_dest none l hl).1
      refine ⟨?_, ?_, ?_⟩
      · simp only [procLines, hstate]
        exact hrest.1
      · intro e he hp
        simp only [procLines, hstate, List.mem_append] at he
        rcases he with he | he
        · exact (procLine_no_dest none l hl).2 e he hp
        · exact hrest.2.1 e he hp
      · intro x hx e he
        simp only [procLines, hstate, List.mem_append]
        rcases List.mem_cons.mp hx with hx | hx
        · subst hx; exact Or.inl he
        · exact Or.inr (hrest.2.2 x hx e he)

theorem countEv_cons (p : SEvent → Bool) (e : SEvent) (l : List SEvent) :
    countEv p (e :: l) = (if p e then 1 else 0) + countEv p l := by
  simp [countEv, List.filter]
  split <;> simp_all [Nat.add_comm]

/-- Running `kindStep` again on the same line from the state it produced
changes nothing and emits nothing. -/
theorem kindStep_idem (s : Option String) (line : String) :
    kindStep (kindStep s line).1 line = ((kindStep s line).1, []) := by
  rcases kindStep_cases s line with h | ⟨k, hdet, hne, h⟩
  · rw [h]; exact h
  · rw [h]
    cases hdest : strContains line "[download] Destination:" with
    | false => exact kindStep_no_dest _ _ hdest
    | true => simp [kindStep, hdest, hdet]

/-- The extra event `procLine` may append is never a `downloading` info
event, so the kind-info count comes from `kindStep` alone. -/
theorem procLine_kind_count (s : Option String) (l : String) :
    countEv isKindInfoEv (procLine s l).2 =
      countEv isKindInfoEv (kindStep s (pyStrip l)).2 := by
  rcases procLine_cases s l with ⟨_, h | ⟨pe, hpe, _, h⟩ | h⟩
  · rw [h]
  · rw [h, countEv_append]
    cases pe <;> simp_all [isProgressEv, countEv, isKindInfoEv]
  · rw [h, countEv_append]
    simp [countEv, isKindInfoEv]

/-- A destination line first announcing a kind different from the current
one: the state switches and exactly one kind-info event is emitted. -/
theorem kindStep_first_occurrence (s : Option String) (line : String) (k : String)
    (hdest : strContains line "[download] Destination:" = true)
    (hdet : inlineDetect (pyLower line) = some k)
    (hne : s ≠ some k) :
    kindStep s line =
      (some k, [SEvent.info "downloading" (some k) ("Downloading " ++ k ++ "...")]) := by
  simp [kindStep, hdest, hdet, Ne.symm hne]

/-- The streaming terminal metadata event is always a `complete`. -/
theorem streamingMetaComplete_shape (w : World) :
    isCompleteEv (streamingMetaComplete w) = true ∧
    isProgressEv (streamingMetaComplete w) = false ∧
    isErrorEv (streamingMetaComplete w) = false := by
  cases hmr : w.metaRaises with
  | some m => simp [streamingMetaComplete, hmr, isCompleteEv, isProgressEv, isErrorEv]
  | none =>
      simp only [streamingMetaComplete, hmr]
      split
      · exact ⟨rfl, rfl, rfl⟩
      · split
        · exact ⟨rfl, rfl, rfl⟩
        · exact ⟨rfl, rfl, rfl⟩

/-- Once validation and the tool check pass, the streaming output is the
starting info event, the loop's events, then the terminal event. -/
theorem yt_streaming_decomp (w : World)
    (hu : w.urlValid = true) (ht : w.missingTools = []) :
    yt_download_streaming w =
      SEvent.info "starting" none "Initializing download..." ::
      (procLines initialStreamType w.lines).2 ++
      (if w.exitCode ≠ 0 then
        [SEvent.error "Download failed. Check if the URL is valid and accessible."]
      else [streamingMetaComplete w]) := by
  simp [yt_download_streaming, hu, ht]

/-! ### Claim theorems -/

/-- C3, counterexample: the line `"[download] 50.0% Merging"` contains the
merge marker `Merging`, yet the loop yields a progress event and no
merging event — the progress branch short-circuits the phase branch, the
opposite of the claimed direction. -/
theorem c3_counterexample_progress_shortcircuits_merge :
    strContains "[download] 50.0% Merging" "Merging" = true ∧
    countEv isMergeInfoEv (procLine none "[download] 50.0% Merging").2 = 0 ∧
    countEv isProgressEv (procLine none "[download] 50.0% Merging").2 = 1 := by
  refine ⟨by decide, by decide, by decide⟩

/-- C3, amended: a line yields the merging info event exactly when it
carries a merge marker AND the progress test (`'[download]' in line and
'%' in line`) did not fire — progress short-circuits phase, not the other
way round; and a single line never yields both a progress and a merging
event. -/
theorem c3_merge_emission_amended (s : Option String) (l : String) :
    (countEv isMergeInfoEv (procLine s l).2 = 1 ↔
      ((strContains (pyStrip l) "[Merger]" || strContains (pyStrip l) "Merging") = true ∧
       (strContains (pyStrip l) "[download]" && strContains (pyStrip l) "%") = false)) ∧
    countEv isProgressEv (procLine s l).2 + countEv isMergeInfoEv (procLine s l).2 ≤ 1 := by
  constructor
  · constructor
    · intro hone
      cases hM : strContains (pyStrip l) "[Merger]" || strContains (pyStrip l) "Merging" with
      | false => rw [procLine_merge_zero_nomarker s l hM] at hone; cases hone
      | true =>
          cases hA : strContains (pyStrip l) "[download]" && strContains (pyStrip l) "%" with
          | true => rw [procLine_merge_zero_progress s l hA] at hone; cases hone
          | false => exact ⟨rfl, rfl⟩
    · rintro ⟨hM, hA⟩
      exact procLine_merge_one s l hA hM
  · cases hA : strContains (pyStrip l) "[download]" && strContains (pyStrip l) "%" with
    | true =>
        rw [procLine_merge_zero_progress s l hA]
        by_cases hB : 2 ≤ (pyWords (pyStrip l)).length
        · cases hC : pyFloatAccepts (rstripPercent ((pyWords (pyStrip l)).getD 1 "")) with
          | true => rw [(procLine_progress_one s l hA hB hC).1]
          | false =>
              rw [procLine_progress_zero s l (by rintro ⟨_, _, hc⟩; rw [hc] at hC; cases hC)]
              omega
        · rw [procLine_progress_zero s l (by rintro ⟨_, hb, _⟩; exact hB hb)]
          omega
    | false =>
        rw [procLine_progress_zero s l (by rintro ⟨ha, _, _⟩; rw [ha] at hA; cases hA)]
        cases hM : strContains (pyStrip l) "[Merger]" || strContains (pyStrip l) "Merging" with
        | true => rw [procLine_merge_one s l hA hM]
        | false => rw [procLine_merge_zero_nomarker s l hM]; omega

/-- C3, witness for the amended theorem: a pure merge line yields exactly
the one merging event. -/
theorem c3_merge_emission_amended_witness :
    countEv isMergeInfoEv (procLine none "[Merger] joining streams").2 = 1 :=
  (c3_merge_emission_amended none "[Merger] joining streams").1.mpr ⟨by decide, by decide⟩

/-- C4, counterexample: two identical merge-marker lines yield two
informational merging events — the merging signal is re-emitted on every
qualifying line, not only on first occurrence. -/
theorem c4_counterexample_merge_not_deduplicated :
    countEv isMergeInfoEv
      (procLines none ["[Merger] joining streams", "[Merger] joining streams"]).2 = 2 := by
  decide

/-- C4, amended: the stream-kind signal is sticky — reprocessing a line
from the state it produced changes no state and emits no further
kind-info event, and a destination line announcing a new kind emits
exactly one kind-info event — but the merging info event is emitted anew
for every merge-marker line on which the progress test did not fire. -/
theorem c4_sticky_kind_merge_every_line (s : Option String) (l : String) :
    ((procLine (procLine s l).1 l).1 = (procLine s l).1 ∧
     countEv isKindInfoEv (procLine (procLine s l).1 l).2 = 0) ∧
    (∀ k, strContains (pyStrip l) "[download] Destination:" = true →
       inlineDetect (pyLower (pyStrip l)) = some k → s ≠ some k →
       countEv isKindInfoEv (procLine s l).2 = 1 ∧ (procLine s l).1 = some k) ∧
    ((strContains (pyStrip l) "[Merger]" || strContains (pyStrip l) "Merging") = true →
     (strContains (pyStrip l) "[download]" && strContains (pyStrip l) "%") = false →
     countEv isMergeInfoEv (procLine s l).2 = 1) := by
  refine ⟨⟨?_, ?_⟩, ?_, ?_⟩
  · rw [(procLine_cases (procLine s l).1 l).1, (procLine_cases s l).1, kindStep_idem]
  · rw [procLine_kind_count, (procLine_cases s l).1, kindStep_idem]
    rfl
  · intro k hdest hdet hne
    have hk := kindStep_first_occurrence s (pyStrip l) k hdest hdet hne
    constructor
    · rw [procLine_kind_count, hk]
      rfl
    · rw [(procLine_cases s l).1, hk]
  · intro hM hA
    exact procLine_merge_one s l hA hM

/-- C4, witness for the amended theorem: a destination line for audio
emits one kind-info event from the unset state, and reprocessing it emits
none. -/
theorem c4_sticky_kind_merge_every_line_witness :
    countEv isKindInfoEv
      (procLine none "[download] Destination: downloads/song.m4a").2 = 1 ∧
    countEv isKindInfoEv
      (procLine (procLine none "[download] Destination: downloads/song.m4a").1
        "[download] Destination: downloads/song.m4a").2 = 0 :=
  ⟨((c4_sticky_kind_merge_every_line none "[download] Destination: downloads/song.m4a").2.1
      "audio" (by decide) (by decide) (by decide)).1,
   (c4_sticky_kind_merge_every_line none "[download] Destination: downloads/song.m4a").1.2⟩

/-- C9: any destination-announcement line whose lowercase text contains
`.webm` is classified as audio — never video — by both the helper
detector and the inline streaming heuristics, because the audio extension
list (which also contains `.webm`) is tested first. -/
theorem c9_webm_classified_audio (l : String)
    (hdest : strContains l "[download] Destination:" = true)
    (hwebm : strContains (pyLower l) ".webm" = true) :
    detect_stream_type l = some "audio" ∧
    (detect_stream_type l == some "video") = false ∧
    inlineDetect (pyLower l) = some "audio" := by
  have hd : detect_stream_type l = some "audio" := by
    simp [detect_stream_type, hdest, hwebm]
  exact ⟨hd, by rw [hd]; rfl, by simp [inlineDetect, hwebm]⟩

/-- C9, witness: a concrete `.webm` destination line. -/
theorem c9_webm_classified_audio_witness :
    detect_stream_type "[download] Destination: downloads/clip.webm" = some "audio" :=
  (c9_webm_classified_audio "[download] Destination: downloads/clip.webm"
    (by decide) (by decide)).1

/-- C7: on any line that passes the progress test (`'[download]'` and a
percent sign) but whose second whitespace token is missing or does not
parse as a float after stripping trailing `%`, `parse_progress_line`
returns `None` (the embedding is total — the `ValueError` branch is the
`else`), and the streaming loop emits no progress event for such a line. -/
theorem c7_malformed_percent_no_event :
    (∀ line : String, strContains line "[download]" = true →
      strContains line "%" = true →
      ((pyWords line).length < 2 ∨
        pyFloatAccepts (rstripPercent ((pyWords line).getD 1 "")) = false) →
      parse_progress_line line = none) ∧
    (∀ (s : Option String) (line : String),
      ((pyWords (pyStrip line)).length < 2 ∨
        pyFloatAccepts (rstripPercent ((pyWords (pyStrip line)).getD 1 "")) = false) →
      countEv isProgressEv (procLine s line).2 = 0) := by
  constructor
  · intro line h1 h2 hbad
    rcases hbad with h | h
    · simp [parse_progress_line, h1, h2, h]
    · simp only [parse_progress_line, h1, h2, Bool.and_self, not_true, if_false]
      split
      · rfl
      · rw [List.getD_eq_getElem?_getD] at h
        simp [h]
  · intro s line hbad
    refine procLine_progress_zero s line ?_
    rintro ⟨_, hb, hc⟩
    rcases hbad with h | h
    · omega
    · rw [hc] at h; cases h

/-- C7, witness: a progress-marked line whose second token is not
numeric. -/
theorem c7_malformed_percent_no_event_witness :
    parse_progress_line "[download] NA% of 5MiB" = none :=
  c7_malformed_percent_no_event.1 "[download] NA% of 5MiB" (by decide) (by decide)
    (Or.inr (by decide))

/-- C10: the stream kind starts unset (`None`); in a run that never
announces a destination, every progress event the streaming path emits
still appears and carries `stream_type` null (`none`). -/
theorem c10_unset_kind_progress_null (w : World)
    (hu : w.urlValid = true) (ht : w.missingTools = [])
    (hnd : ∀ l ∈ w.lines, strContains (pyStrip l) "[download] Destination:" = false) :
    initialStreamType = none ∧
    (∀ e ∈ yt_download_streaming w, isProgressEv e = true → evStreamType e = none) ∧
    (∀ l ∈ w.lines,
      (strContains (pyStrip l) "[download]" && strContains (pyStrip l) "%") = true →
      2 ≤ (pyWords (pyStrip l)).length →
      pyFloatAccepts (rstripPercent ((pyWords (pyStrip l)).getD 1 "")) = true →
      ∃ e, e ∈ yt_download_streaming w ∧ isProgressEv e = true ∧ evStreamType e = none) := by
  have hdecomp := yt_streaming_decomp w hu ht
  have hnod := procLines_no_dest w.lines hnd
  refine ⟨rfl, ?_, ?_⟩
  · intro e he hp
    rw [hdecomp] at he
    rcases List.mem_cons.mp he with he | he
    · subst he; simp [isProgressEv] at hp
    · rcases List.mem_append.mp he with he | he
      · exact hnod.2.1 e he hp
      · split at he
        · simp only [List.mem_singleton] at he
          subst he; simp [isProgressEv] at hp
        · simp only [List.mem_singleton] at he
          subst he
          rw [(streamingMetaComplete_shape w).2.1] at hp
          cases hp
  · intro l hl h1 h2 h3
    have hp1 := procLine_progress_one none l h1 h2 h3
    have hks := kindStep_no_dest none (pyStrip l) (hnd l hl)
    have hmem := hnod.2.2 l hl _ hp1.2
    have hmem2 : SEvent.progress (rstripPercent ((pyWords (pyStrip l)).getD 1 ""))
        (kindStep none (pyStrip l)).1 (lookupAfter "of" (pyWords (pyStrip l)))
        (lookupAfter "at" (pyWords (pyStrip l)))
        (lookupAfter "ETA" (pyWords (pyStrip l))) ∈ yt_download_streaming w := by
      rw [hdecomp]
      exact List.mem_cons_of_mem _ (List.mem_append_left _ hmem)
    exact ⟨_, hmem2, rfl, by simp [evStreamType, hks]⟩

/-- C10, witness: a run whose single line is a plain progress line. -/
theorem c10_unset_kind_progress_null_witness :
    ∃ e, e ∈ yt_download_streaming
        { urlValid := true, missingTools := [],
          lines := ["[download]  42.0% of 10MiB at 1MiB/s ETA 00:05"],
          exitCode := 0, dlStderr := "", metaRaises := none, metaExit := 0,
          metaParses := true, metaParseErr := "" } ∧
      isProgressEv e = true ∧ evStreamType e = none :=
  (c10_unset_kind_progress_null
      { urlValid := true, missingTools := [],
        lines := ["[download]  42.0% of 10MiB at 1MiB/s ETA 00:05"],
        exitCode := 0, dlStderr := "", metaRaises := none, metaExit := 0,
        metaParses := true, metaParseErr := "" }
      rfl rfl (by decide)).2.2
    "[download]  42.0% of 10MiB at 1MiB/s ETA 00:05" (by simp)
    (by decide) (by decide) (by decide)

/-- C6, counterexample: the metadata subprocess of the synchronous
`yt_download` path is started with no `timeout=` argument at all, so not
every metadata-fetch invocation gets the default 30-unit bound. -/
theorem c6_counterexample_sync_meta_no_timeout :
    (ytDownloadMetaCall "https://youtu.be/dQw4w9WgXcQ").timeout = none ∧
    ((ytDownloadMetaCall "https://youtu.be/dQw4w9WgXcQ").timeout == some 30) = false :=
  ⟨rfl, rfl⟩

/-- C6, amended: the streaming path's metadata subprocess and
`fetch_video_metadata` (by default) are bounded by 30 time units, and the
download subprocesses have no timeout — but the synchronous path's
metadata subprocess also has no timeout. -/
theorem c6_timeout_amended (url tmpl : String) (t : Nat) :
    (ytStreamingMetaCall url).timeout = some 30 ∧
    (fetchVideoMetadataCall url).timeout = some 30 ∧
    (fetchVideoMetadataCall url t).timeout = some t ∧
    (ytDownloadMetaCall url).timeout = none ∧
    (ytDownloadRunCall url tmpl).timeout = none ∧
    (ytStreamingRunCall url tmpl).timeout = none :=
  ⟨rfl, rfl, rfl, rfl, rfl, rfl⟩

/-- C5, counterexample: on the details endpoint a missing `url` does
return 400, but with the body `{"error": "Missing 'url' parameter"}` —
not the claimed `{"status": ..., "message": ...}` object. -/
theorem c5_counterexample_details_missing_url_body :
    (doGET_yt_details none
      { urlValid := true, missingTools := [], shellError := false,
        jsonParses := true }).httpStatus = 400 ∧
    (doGET_yt_details none
      { urlValid := true, missingTools := [], shellError := false,
        jsonParses := true }).body =
      RespBody.json (Json.obj [("error", Json.str "Missing 'url' parameter")]) ∧
    (doGET_yt_details none
      { urlValid := true, missingTools := [], shellError := false,
        jsonParses := true }).body ≠
      RespBody.json (Json.obj [("status", Json.str "error"),
        ("message", Json.str "Missing 'url' query parameter.")]) :=
  ⟨rfl, rfl, by simp [doGET_yt_details]⟩

/-- C5, amended: a missing `url` yields 400 and zero subprocesses on both
endpoints; the download endpoint answers with exactly the claimed JSON
object, while the details endpoint answers with
`{"error": "Missing 'url' parameter"}`. -/
theorem c5_missing_url_amended (stream binary fileExists : Bool)
    (w : World) (dw : DetailsWorld) :
    doGET_yt_download none stream binary fileExists w =
      { httpStatus := 400
        body := .json (.obj [("status", Json.str "error"),
          ("message", Json.str "Missing 'url' query parameter.")])
        spawned := 0 } ∧
    doGET_yt_details none dw =
      { httpStatus := 400
        body := .json (.obj [("error", Json.str "Missing 'url' parameter")])
        spawned := 0 } :=
  ⟨rfl, rfl⟩

/-- C1, counterexample: in the synchronous path, a download that exits 0
followed by a metadata fetch that exits nonzero is reported as the
overall `error` — not as a degraded `success`. -/
theorem c1_counterexample_sync_meta_failure_error :
    (yt_download
      { urlValid := true, missingTools := [], lines := [], exitCode := 0,
        dlStderr := "", metaRaises := none, metaExit := 1, metaParses := true,
        metaParseErr := "" }).status = "error" ∧
    (yt_download
      { urlValid := true, missingTools := [], lines := [], exitCode := 0,
        dlStderr := "", metaRaises := none, metaExit := 1, metaParses := true,
        metaParseErr := "" }).message =
      "Video downloaded, but failed to retrieve metadata." ∧
    (({ urlValid := true, missingTools := [], lines := [], exitCode := 0,
        dlStderr := "", metaRaises := none, metaExit := 1, metaParses := true,
        metaParseErr := "" } : World)).exitCode = 0 :=
  ⟨rfl, rfl, rfl⟩

/-- C1, amended: metadata failure after a zero-exit download degrades
gracefully only in the streaming path — one `complete` event with status
`success` and no metadata, zero `error` events — while the synchronous
path reports the overall result as an error. -/
theorem c1_meta_failure_graceful_streaming_only (w : World)
    (hu : w.urlValid = true) (ht : w.missingTools = []) (hz : w.exitCode = 0)
    (hfail : w.metaRaises ≠ none ∨ w.metaExit ≠ 0 ∨ w.metaParses = false) :
    (∃ msg, streamingMetaComplete w = SEvent.complete "success" msg false false ∧
       SEvent.complete "success" msg false false ∈ yt_download_streaming w) ∧
    countEv isErrorEv (yt_download_streaming w) = 0 ∧
    countEv isCompleteEv (yt_download_streaming w) = 1 ∧
    (yt_download w).status = "error" := by
  have hdecomp := yt_streaming_decomp w hu ht
  have hterm : yt_download_streaming w =
      SEvent.info "starting" none "Initializing download..." ::
      (procLines initialStreamType w.lines).2 ++ [streamingMetaComplete w] := by
    rw [hdecomp]; simp [hz]
  have hnt := procLines_not_terminal w.lines initialStreamType
  have hshape := streamingMetaComplete_shape w
  have hcompl : ∃ msg,
      streamingMetaComplete w = SEvent.complete "success" msg false false := by
    cases hmr : w.metaRaises with
    | some m =>
        exact ⟨"Video downloaded successfully (metadata error: " ++ m ++ ").",
          by simp [streamingMetaComplete, hmr]⟩
    | none =>
        by_cases hme : w.metaExit = 0
        · have hparse : w.metaParses = false := by
            rcases hfail with h | h | h
            · exact absurd hmr h
            · exact absurd hme h
            · exact h
          exact ⟨"Video downloaded successfully (metadata error: "
              ++ w.metaParseErr ++ ").",
            by simp [streamingMetaComplete, hmr, hme, hparse]⟩
        · exact ⟨"Video downloaded successfully (metadata unavailable).",
            by simp [streamingMetaComplete, hmr, hme]⟩
  rcases hcompl with ⟨msg, hmsg⟩
  refine ⟨⟨msg, hmsg, ?_⟩, ?_, ?_, ?_⟩
  · rw [hterm, ← hmsg]
    exact List.mem_cons_of_mem _ (List.mem_append_right _ (by simp))
  · rw [hterm, List.cons_append, countEv_cons, countEv_append, hnt.2,
      countEv_cons, countEv_nil, hshape.2.2]
    rfl
  · rw [hterm, List.cons_append, countEv_cons, countEv_append, hnt.1,
      countEv_cons, countEv_nil, hshape.1]
    rfl
  · cases hmr : w.metaRaises with
    | some m => simp [yt_download, hu, ht, hz, hmr]
    | none =>
        by_cases hme : w.metaExit = 0
        · have hparse : w.metaParses = false := by
            rcases hfail with h | h | h
            · exact absurd hmr h
            · exact absurd hme h
            · exact h
          simp [yt_download, hu, ht, hz, hmr, hme, hparse]
        · simp [yt_download, hu, ht, hz, hmr, hme]

/-- C1, witness: a concrete run whose metadata subprocess exits 1. -/
theorem c1_meta_failure_graceful_streaming_only_witness :
    countEv isCompleteEv (yt_download_streaming
      { urlValid := true, missingTools := [], lines := [], exitCode := 0,
        dlStderr := "", metaRaises := none, metaExit := 1, metaParses := true,
        metaParseErr := "" }) = 1 :=
  (c1_meta_failure_graceful_streaming_only
    { urlValid := true, missingTools := [], lines := [], exitCode := 0,
      dlStderr := "", metaRaises := none, metaExit := 1, metaParses := true,
      metaParseErr := "" }
    rfl rfl rfl (Or.inr (Or.inl (by decide)))).2.2.1

/-- C2, counterexample: in the synchronous path the download subprocess
can exit 0 and the request still not produce a successful result (here
the metadata output fails to parse) — refuting the claimed "if"
direction of the iff. -/
theorem c2_counterexample_sync_zero_exit_no_success :
    (({ urlValid := true, missingTools := [], lines := [], exitCode := 0,
        dlStderr := "", metaRaises := none, metaExit := 0, metaParses := false,
        metaParseErr := "bad json" } : World)).exitCode = 0 ∧
    (yt_download
      { urlValid := true, missingTools := [], lines := [], exitCode := 0,
        dlStderr := "", metaRaises := none, metaExit := 0, metaParses := false,
        metaParseErr := "bad json" }).status = "error" ∧
    (((yt_download
      { urlValid := true, missingTools := [], lines := [], exitCode := 0,
        dlStderr := "", metaRaises := none, metaExit := 0, metaParses := false,
        metaParseErr := "bad json" }).status == "success") = false) :=
  ⟨rfl, rfl, by decide⟩

/-- C2, amended: in the streaming path a `complete` event is emitted iff
the subprocess exited 0, a nonzero exit yields exactly one `error` and no
`complete`, and no run yields both; in the synchronous path success still
implies a zero exit and a nonzero exit an error result, but a zero exit
yields success only when the metadata stage also succeeds. -/
theorem c2_complete_iff_zero_exit (w : World)
    (hu : w.urlValid = true) (ht : w.missingTools = []) :
    (countEv isCompleteEv (yt_download_streaming w) = 1 ↔ w.exitCode = 0) ∧
    (w.exitCode ≠ 0 →
      countEv isErrorEv (yt_download_streaming w) = 1 ∧
      countEv isCompleteEv (yt_download_streaming w) = 0) ∧
    (countEv isCompleteEv (yt_download_streaming w) = 0 ∨
     countEv isErrorEv (yt_download_streaming w) = 0) ∧
    ((yt_download w).status = "success" → w.exitCode = 0) ∧
    (w.exitCode ≠ 0 → (yt_download w).status = "error") := by
  have hdecomp := yt_streaming_decomp w hu ht
  have hnt := procLines_not_terminal w.lines initialStreamType
  have hshape := streamingMetaComplete_shape w
  by_cases hex : w.exitCode = 0
  · have hterm : yt_download_streaming w =
        SEvent.info "starting" none "Initializing download..." ::
        (procLines initialStreamType w.lines).2 ++ [streamingMetaComplete w] := by
      rw [hdecomp]; simp [hex]
    have hcc : countEv isCompleteEv (yt_download_streaming w) = 1 := by
      rw [hterm, List.cons_append, countEv_cons, countEv_append, hnt.1,
        countEv_cons, countEv_nil, hshape.1]
      rfl
    have hce : countEv isErrorEv (yt_download_streaming w) = 0 := by
      rw [hterm, List.cons_append, countEv_cons, countEv_append, hnt.2,
        countEv_cons, countEv_nil, hshape.2.2]
      rfl
    exact ⟨⟨fun _ => hex, fun _ => hcc⟩, fun h => absurd hex h, Or.inr hce,
      fun _ => hex, fun h => absurd hex h⟩
  · have hterm : yt_download_streaming w =
        SEvent.info "starting" none "Initializing download..." ::
        (procLines initialStreamType w.lines).2 ++
        [SEvent.error "Download failed. Check if the URL is valid and accessible."] := by
      rw [hdecomp]; simp [hex]
    have hcc : countEv isCompleteEv (yt_download_streaming w) = 0 := by
      rw [hterm, List.cons_append, countEv_cons, countEv_append, hnt.1,
        countEv_cons, countEv_nil]
      rfl
    have hce : countEv isErrorEv (yt_download_streaming w) = 1 := by
      rw [hterm, List.cons_append, countEv_cons, countEv_append, hnt.2,
        countEv_cons, countEv_nil]
      rfl
    have hsync : (yt_download w).status = "error" := by
      simp [yt_download, hu, ht, hex]
    refine ⟨⟨fun h => ?_, fun h => absurd h hex⟩, fun _ => ⟨hce, hcc⟩, Or.inl hcc,
      fun h => ?_, fun _ => hsync⟩
    · rw [hcc] at h; cases h
    · rw [hsync] at h; exact absurd h (by decide)

/-- C2, witness: a concrete zero-exit streaming run emits exactly one
`complete`. -/
theorem c2_complete_iff_zero_exit_witness :
    countEv isCompleteEv (yt_download_streaming
      { urlValid := true, missingTools := [], lines := [], exitCode := 0,
        dlStderr := "", metaRaises := none, metaExit := 0, metaParses := true,
        metaParseErr := "" }) = 1 :=
  (c2_complete_iff_zero_exit
    { urlValid := true, missingTools := [], lines := [], exitCode := 0,
      dlStderr := "", metaRaises := none, metaExit := 0, metaParses := true,
      metaParseErr := "" }
    rfl rfl).1.mpr rfl

/-! ### C8 — round trip of the SSE frame

Helper lemmas: hex digits, decimal digits, prefix stripping, and the
span of newline-free segments. -/

theorem hexVal_hexDigitChar (n : Nat) (h : n < 16) :
    hexVal (hexDigitChar n) = some n := by
  interval_cases n <;> decide

theorem char_not_surrogate (c : Char) :
    c.toNat < 55296 ∨ (57343 < c.toNat ∧ c.toNat < 1114112) := by
  have h := c.valid
  rcases h with h | ⟨h1, h2⟩
  · left
    exact h
  · right
    exact ⟨h1, h2⟩

theorem char_toNat_lt (c : Char) : c.toNat < 1114112 := by
  rcases char_not_surrogate c with h | ⟨_, h⟩ <;> omega

theorem digitChar_isDigit (d : Nat) (h : d < 10) :
    (Char.ofNat (48 + d)).isDigit = true := by
  interval_cases d <;> decide

theorem digitChar_toNat (d : Nat) (h : d < 10) :
    (Char.ofNat (48 + d)).toNat = 48 + d := by
  interval_cases d <;> decide

theorem digit_not_special (c : Char) (h : c.isDigit = true) :
    c ≠ 'n' ∧ c ≠ 't' ∧ c ≠ 'f' ∧ c ≠ '"' ∧ c ≠ '[' ∧ c ≠ '{' ∧ c ≠ '-' ∧
    c ≠ ']' ∧ c ≠ '}' ∧ c ≠ '\n' := by
  refine ⟨?_, ?_, ?_, ?_, ?_, ?_, ?_, ?_, ?_, ?_⟩ <;>
    (intro h1; rw [h1] at h; exact absurd h (by decide))

theorem natChars_all_digits (n : Nat) : ∀ c ∈ natChars n, c.isDigit = true := by
  intro c hc
  unfold natChars at hc
  split at hc
  · simp at hc
    rw [hc]; decide
  · simp only [List.mem_reverse, List.mem_map] at hc
    rcases hc with ⟨d, hd, rfl⟩
    exact digitChar_isDigit d (Nat.digits_lt_base (by norm_num) hd)

theorem natChars_ne_nil (n : Nat) : natChars n ≠ [] := by
  unfold natChars
  split
  · simp
  · rename_i hn
    have hd : Nat.digits 10 n ≠ [] := Nat.digits_ne_nil_iff_ne_zero.mpr hn
    simp_all

theorem takeWhile_all_append (p : Char → Bool) (l1 l2 : List Char)
    (h1 : ∀ c ∈ l1, p c = true)
    (h2 : ∀ c, l2.head? = some c → p c = false) :
    (l1 ++ l2).takeWhile p = l1 := by
  induction l1 with
  | nil =>
      cases l2 with
      | nil => simp
      | cons c t => simp [List.takeWhile, h2 c rfl]
  | cons c t ih =>
      simp only [List.cons_append, List.takeWhile]
      rw [h1 c (by simp)]
      simp [ih (fun x hx => h1 x (by simp [hx]))]

theorem dropWhile_all_append (p : Char → Bool) (l1 l2 : List Char)
    (h1 : ∀ c ∈ l1, p c = true)
    (h2 : ∀ c, l2.head? = some c → p c = false) :
    (l1 ++ l2).dropWhile p = l2 := by
  induction l1 with
  | nil =>
      cases l2 with
      | nil => simp
      | cons c t => simp [List.dropWhile, h2 c rfl]
  | cons c t ih =>
      simp only [List.cons_append, List.dropWhile]
      rw [h1 c (by simp)]
      simpa using ih (fun x hx => h1 x (by simp [hx]))

theorem stripPre_exact (p cs : List Char) : stripPre p (p ++ cs) = some cs := by
  induction p with
  | nil => rfl
  | cons c t ih => simp [stripPre, ih]

theorem natChars_foldl (n : Nat) :
    (natChars n).foldl (fun a c => 10 * a + (c.toNat - 48)) 0 = n := by
  unfold natChars
  split
  · simp_all
  · have hlt : ∀ d ∈ Nat.digits 10 n, d < 10 :=
      fun d hd => Nat.digits_lt_base (by norm_num) hd
    have key : ∀ (L : List Nat), (∀ d ∈ L, d < 10) →
        ((L.map (fun d => Char.ofNat (48 + d))).reverse).foldl
          (fun a c => 10 * a + (c.toNat - 48)) 0 = Nat.ofDigits 10 L := by
      intro L
      induction L with
      | nil => intro _; simp [Nat.ofDigits]
      | cons d L ihL =>
          intro hL
          have hd := hL d (by simp)
          simp only [List.map_cons, List.reverse_cons, List.foldl_append,
            List.foldl_cons, List.foldl_nil]
          rw [ihL (fun x hx => hL x (by simp [hx])), digitChar_toNat d hd,
            Nat.ofDigits_cons]
          omega
    rw [key (Nat.digits 10 n) hlt, Nat.ofDigits_digits]

theorem jparseNat_natChars (n : Nat) (rest : List Char)
    (h : nonDigitHead rest = true) :
    jparseNat (natChars n ++ rest) = some (n, rest) := by
  have hall := natChars_all_digits n
  have hhd : ∀ c, rest.head? = some c → c.isDigit = false := by
    intro c hc
    cases rest with
    | nil => cases hc
    | cons r t =>
        simp at hc
        subst hc
        simp [nonDigitHead] at h
        simpa using h
  unfold jparseNat
  rw [takeWhile_all_append _ _ _ hall hhd, dropWhile_all_append _ _ _ hall hhd]
  have hne := natChars_ne_nil n
  simp only [List.isEmpty_iff]
  rw [if_neg hne]
  rw [natChars_foldl]


set_option maxHeartbeats 1000000

theorem jparseStrAux_unicode (m : Nat) (k : List Char)
    (hm : m < 65536) (hns : ¬ (55296 ≤ m ∧ m < 57344)) :
    jparseStrAux ('\\' :: 'u' :: hex4Chars m ++ k) =
      consFst (Char.ofNat m) (jparseStrAux k) := by
  simp only [hex4Chars, List.cons_append, List.nil_append]
  rw [jparseStrAux]
  rw [hexVal_hexDigitChar _ (by omega), hexVal_hexDigitChar _ (by omega),
    hexVal_hexDigitChar _ (by omega), hexVal_hexDigitChar _ (by omega)]
  have hrec : m / 4096 % 16 * 4096 + m / 256 % 16 * 256 + m / 16 % 16 * 16 + m % 16
      = m := by omega
  simp only [hrec]
  rw [if_neg (by omega), if_neg (by omega)]

theorem jparseStrAux_surrogates (t : Nat) (k : List Char)
    (h1 : 65536 ≤ t) (h2 : t < 1114112) :
    jparseStrAux ((('\\' :: 'u' :: hex4Chars (55296 + (t - 65536) / 1024)) ++
        ('\\' :: 'u' :: hex4Chars (56320 + (t - 65536) % 1024))) ++ k) =
      consFst (Char.ofNat t) (jparseStrAux k) := by
  simp only [hex4Chars, List.cons_append, List.nil_append, List.append_assoc]
  rw [jparseStrAux]
  rw [hexVal_hexDigitChar _ (by omega), hexVal_hexDigitChar _ (by omega),
    hexVal_hexDigitChar _ (by omega), hexVal_hexDigitChar _ (by omega)]
  have hhi : (55296 + (t - 65536) / 1024) / 4096 % 16 * 4096 +
      (55296 + (t - 65536) / 1024) / 256 % 16 * 256 +
      (55296 + (t - 65536) / 1024) / 16 % 16 * 16 +
      (55296 + (t - 65536) / 1024) % 16 = 55296 + (t - 65536) / 1024 := by omega
  simp only [hhi]
  rw [if_pos (by omega)]
  rw [jparseLowSurr]
  rw [hexVal_hexDigitChar _ (by omega), hexVal_hexDigitChar _ (by omega),
    hexVal_hexDigitChar _ (by omega), hexVal_hexDigitChar _ (by omega)]
  have hlo : (56320 + (t - 65536) % 1024) / 4096 % 16 * 4096 +
      (56320 + (t - 65536) % 1024) / 256 % 16 * 256 +
      (56320 + (t - 65536) % 1024) / 16 % 16 * 16 +
      (56320 + (t - 65536) % 1024) % 16 = 56320 + (t - 65536) % 1024 := by omega
  simp only [hlo]
  rw [if_pos (by omega)]
  have harg : 65536 + (55296 + (t - 65536) / 1024 - 55296) * 1024 +
      (56320 + (t - 65536) % 1024 - 56320) = t := by omega
  rw [harg]

theorem jparseStrAux_plain (c : Char) (k : List Char)
    (h1 : ¬ c = '"') (h2 : ¬ c = '\\') :
    jparseStrAux (c :: k) = consFst c (jparseStrAux k) := by
  rw [jparseStrAux.eq_def]
  simp [h1, h2]

/-- Parsing one escaped character recovers exactly that character. -/
theorem jEscChar_parse (c : Char) (k : List Char) :
    jparseStrAux (jEscChar c ++ k) = consFst c (jparseStrAux k) := by
  unfold jEscChar
  split_ifs with h1 h2 h3 h4 h5 h6 h7 h8 h9 h10
  · subst h1; simp only [List.cons_append, List.nil_append, jparseStrAux]; rfl
  · subst h2; simp only [List.cons_append, List.nil_append, jparseStrAux]; rfl
  · subst h3; simp only [List.cons_append, List.nil_append, jparseStrAux]; rfl
  · subst h4; simp only [List.cons_append, List.nil_append, jparseStrAux]; rfl
  · subst h5; simp only [List.cons_append, List.nil_append, jparseStrAux]; rfl
  · subst h6; simp only [List.cons_append, List.nil_append, jparseStrAux]; rfl
  · subst h7; simp only [List.cons_append, List.nil_append, jparseStrAux]; rfl
  · rw [jparseStrAux_unicode c.toNat k (by omega) (by omega), Char.ofNat_toNat]
  · exact jparseStrAux_plain c k h1 h2
  · have hns : ¬ (55296 ≤ c.toNat ∧ c.toNat < 57344) := by
      rcases char_not_surrogate c with h | ⟨ha, hb⟩ <;> omega
    rw [jparseStrAux_unicode c.toNat k h10 hns, Char.ofNat_toNat]
  · have hlt := char_toNat_lt c
    rw [jparseStrAux_surrogates c.toNat k (by omega) hlt, Char.ofNat_toNat]

/-- Parsing an escaped run stops exactly at the closing quote. -/
theorem jEscList_parse (cs : List Char) (k : List Char) :
    jparseStrAux (jEscList cs ++ '"' :: k) = some (cs, k) := by
  induction cs with
  | nil => simp only [jEscList, List.map_nil, List.flatten_nil, List.nil_append,
      jparseStrAux]
  | cons c t ih =>
      have hstep : jEscList (c :: t) = jEscChar c ++ jEscList t := by
        simp [jEscList]
      rw [hstep, List.append_assoc, jEscChar_parse, ih]
      rfl

theorem digit_ne_rbracket (c : Char) (h : c.isDigit = true) : c ≠ ']' := by
  intro h1; rw [h1] at h; exact absurd h (by decide)

theorem digit_ne_rbrace (c : Char) (h : c.isDigit = true) : c ≠ '}' := by
  intro h1; rw [h1] at h; exact absurd h (by decide)

theorem digit_ne_newline (c : Char) (h : c.isDigit = true) : c ≠ '\n' := by
  intro h1; rw [h1] at h; exact absurd h (by decide)

/-- Every rendered value is nonempty and starts with a character that
closes neither an array nor an object. -/
theorem jser_shape (v : Json) :
    ∃ c cs, jser v = c :: cs ∧ c ≠ ']' ∧ c ≠ '}' := by
  cases v with
  | null => exact ⟨'n', ['u', 'l', 'l'], by simp [jser, kwNull], by decide, by decide⟩
  | bool b =>
      cases b with
      | true =>
          exact ⟨'t', ['r', 'u', 'e'], by simp [jser, kwTrue], by decide, by decide⟩
      | false =>
          exact ⟨'f', ['a', 'l', 's', 'e'], by simp [jser, kwFalse], by decide, by decide⟩
  | num n =>
      cases n with
      | ofNat m =>
          cases hnc : natChars m with
          | nil => exact absurd hnc (natChars_ne_nil m)
          | cons c cs =>
              have hd : c.isDigit = true :=
                natChars_all_digits m c (by rw [hnc]; simp)
              exact ⟨c, cs, by simp [jser, intChars, hnc],
                digit_ne_rbracket c hd, digit_ne_rbrace c hd⟩
      | negSucc m =>
          exact ⟨'-', natChars (m + 1), by simp [jser, intChars],
            by decide, by decide⟩
  | str s =>
      exact ⟨'"', jEscList s.toList ++ ['"'], by simp [jser, jStrChars],
        by decide, by decide⟩
  | arr es => exact ⟨'[', jserElems es ++ [']'], by simp [jser], by decide, by decide⟩
  | obj fs => exact ⟨'{', jserFields fs ++ ['}'], by simp [jser], by decide, by decide⟩

theorem hexDigitChar_ne_newline (n : Nat) (h : n < 16) :
    hexDigitChar n ≠ '\n' := by
  interval_cases n <;> decide

set_option maxRecDepth 8192

theorem uEsc_no_newline (m : Nat) : ∀ x ∈ '\\' :: 'u' :: hex4Chars m, x ≠ '\n' := by
  intro x hx
  simp only [hex4Chars, List.mem_cons, List.not_mem_nil, or_false] at hx
  rcases hx with rfl | rfl | rfl | rfl | rfl | rfl
  · decide
  · decide
  · exact hexDigitChar_ne_newline _ (by omega)
  · exact hexDigitChar_ne_newline _ (by omega)
  · exact hexDigitChar_ne_newline _ (by omega)
  · exact hexDigitChar_ne_newline _ (by omega)

/-- The escape of any character contains no newline — this is what keeps
the `data:` line single. -/
theorem jEscChar_no_newline (c : Char) : ∀ x ∈ jEscChar c, x ≠ '\n' := by
  intro x hx
  unfold jEscChar at hx
  split_ifs at hx with h1 h2 h3 h4 h5 h6 h7 h8 h9 h10
  · simp at hx; rcases hx with rfl | rfl <;> decide
  · simp at hx; rcases hx with rfl | rfl <;> decide
  · simp at hx; rcases hx with rfl | rfl <;> decide
  · simp at hx; rcases hx with rfl | rfl <;> decide
  · simp at hx; rcases hx with rfl | rfl <;> decide
  · simp at hx; rcases hx with rfl | rfl <;> decide
  · simp at hx; rcases hx with rfl | rfl <;> decide
  · exact uEsc_no_newline c.toNat x hx
  · simp at hx
    subst hx
    intro hq
    rw [hq] at h8
    exact h8 (by decide)
  · exact uEsc_no_newline c.toNat x hx
  · rcases List.mem_append.mp hx with h | h
    · exact uEsc_no_newline _ x h
    · exact uEsc_no_newline _ x h

theorem jEscList_no_newline (cs : List Char) : ∀ x ∈ jEscList cs, x ≠ '\n' := by
  intro x hx
  simp only [jEscList, List.mem_flatten, List.mem_map] at hx
  rcases hx with ⟨l, ⟨c, _, rfl⟩, hxl⟩
  exact jEscChar_no_newline c x hxl

theorem natChars_no_newline (n : Nat) : ∀ x ∈ natChars n, x ≠ '\n' := by
  intro x hx
  exact digit_ne_newline x (natChars_all_digits n x hx)

theorem intChars_no_newline (n : Int) : ∀ x ∈ intChars n, x ≠ '\n' := by
  intro x hx
  cases n with
  | ofNat m => exact natChars_no_newline m x hx
  | negSucc m =>
      simp only [intChars, List.mem_cons] at hx
      rcases hx with rfl | hx
      · decide
      · exact natChars_no_newline (m + 1) x hx

theorem jStrChars_no_newline (s : String) : ∀ x ∈ jStrChars s, x ≠ '\n' := by
  intro x hx
  have hsh : x = '"' ∨ x ∈ jEscList s.toList := by
    simp only [jStrChars, List.mem_cons, List.mem_append, List.mem_singleton] at hx
    tauto
  rcases hsh with rfl | hx2
  · decide
  · exact jEscList_no_newline _ x hx2

mutual

/-- A rendered JSON value contains no newline: the payload occupies a
single `data:` line of the SSE frame. -/
theorem jser_no_newline : ∀ (v : Json), ∀ x ∈ jser v, x ≠ '\n'
  | .null => by
      intro x hx
      simp only [jser, kwNull, List.mem_cons, List.not_mem_nil, or_false] at hx
      rcases hx with rfl | rfl | rfl | rfl <;> decide
  | .bool true => by
      intro x hx
      simp only [jser, kwTrue, List.mem_cons, List.not_mem_nil, or_false] at hx
      rcases hx with rfl | rfl | rfl | rfl <;> decide
  | .bool false => by
      intro x hx
      simp only [jser, kwFalse, List.mem_cons, List.not_mem_nil, or_false] at hx
      rcases hx with rfl | rfl | rfl | rfl | rfl <;> decide
  | .num n => by
      intro x hx
      simp only [jser] at hx
      exact intChars_no_newline n x hx
  | .str s => by
      intro x hx
      simp only [jser] at hx
      exact jStrChars_no_newline s x hx
  | .arr es => by
      intro x hx
      have hsh : x = '[' ∨ x = ']' ∨ x ∈ jserElems es := by
        simp only [jser, List.mem_cons, List.mem_append, List.mem_singleton] at hx
        tauto
      rcases hsh with rfl | rfl | hx2
      · decide
      · decide
      · exact jserElems_no_newline es x hx2
  | .obj fs => by
      intro x hx
      have hsh : x = '{' ∨ x = '}' ∨ x ∈ jserFields fs := by
        simp only [jser, List.mem_cons, List.mem_append, List.mem_singleton] at hx
        tauto
      rcases hsh with rfl | rfl | hx2
      · decide
      · decide
      · exact jserFields_no_newline fs x hx2

theorem jserElems_no_newline : ∀ (es : List Json), ∀ x ∈ jserElems es, x ≠ '\n'
  | [] => by intro x hx; simp [jserElems] at hx
  | [e] => by
      intro x hx
      simp only [jserElems] at hx
      exact jser_no_newline e x hx
  | e :: e2 :: rest => by
      intro x hx
      have hsh : x = ',' ∨ x = ' ' ∨ x ∈ jser e ∨ x ∈ jserElems (e2 :: rest) := by
        simp only [jserElems, List.mem_append, List.mem_cons] at hx
        tauto
      rcases hsh with rfl | rfl | hx2 | hx2
      · decide
      · decide
      · exact jser_no_newline e x hx2
      · exact jserElems_no_newline (e2 :: rest) x hx2

theorem jserFields_no_newline :
    ∀ (fs : List (String × Json)), ∀ x ∈ jserFields fs, x ≠ '\n'
  | [] => by intro x hx; simp [jserFields] at hx
  | [f] => by
      intro x hx
      have hsh : x = ':' ∨ x = ' ' ∨ x ∈ jStrChars f.1 ∨ x ∈ jser f.2 := by
        simp only [jserFields, List.mem_append, List.mem_cons] at hx
        tauto
      rcases hsh with rfl | rfl | hx2 | hx2
      · decide
      · decide
      · exact jStrChars_no_newline f.1 x hx2
      · exact jser_no_newline f.2 x hx2
  | f :: f2 :: rest => by
      intro x hx
      have hsh : x = ':' ∨ x = ' ' ∨ x = ',' ∨ x ∈ jStrChars f.1 ∨
          x ∈ jser f.2 ∨ x ∈ jserFields (f2 :: rest) := by
        simp only [jserFields, List.mem_append, List.mem_cons] at hx
        tauto
      rcases hsh with rfl | rfl | rfl | hx2 | hx2 | hx2
      · decide
      · decide
      · decide
      · exact jStrChars_no_newline f.1 x hx2
      · exact jser_no_newline f.2 x hx2
      · exact jserFields_no_newline (f2 :: rest) x hx2

end

theorem intChars_length_pos (n : Int) : 1 ≤ (intChars n).length := by
  cases n with
  | ofNat m =>
      simp only [intChars]
      have := natChars_ne_nil m
      cases h : natChars m with
      | nil => exact absurd h this
      | cons c cs => simp [h]
  | negSucc m => simp [intChars]

mutual

/-- The parser fuel `jsize` is dominated by the rendered length. -/
theorem jsize_le : ∀ (v : Json), jsize v ≤ 3 * (jser v).length
  | .null => by simp [jsize, jser, kwNull]
  | .bool true => by simp [jsize, jser, kwTrue]
  | .bool false => by simp [jsize, jser, kwFalse]
  | .num n => by
      have h := intChars_length_pos n
      simp only [jsize, jser]
      omega
  | .str s => by
      simp only [jsize, jser, jStrChars, List.length_cons, List.length_append]
      omega
  | .arr es => by
      have h := jsizeElems_le es
      simp only [jsize, jser, List.length_cons, List.length_append,
        List.length_singleton]
      omega
  | .obj fs => by
      have h := jsizeFields_le fs
      simp only [jsize, jser, List.length_cons, List.length_append,
        List.length_singleton]
      omega

theorem jsizeElems_le : ∀ (es : List Json),
    jsizeElems es ≤ 3 * (jserElems es).length + 5
  | [] => by simp [jsizeElems, jserElems]
  | [e] => by
      have h := jsize_le e
      simp only [jsizeElems, jserElems]
      omega
  | e :: e2 :: rest => by
      have h1 := jsize_le e
      have h2 := jsizeElems_le (e2 :: rest)
      simp only [jsizeElems, jserElems, List.length_append, List.length_cons] at h2 ⊢
      omega

theorem jsizeFields_le : ∀ (fs : List (String × Json)),
    jsizeFields fs ≤ 3 * (jserFields fs).length + 5
  | [] => by simp [jsizeFields, jserFields]
  | [f] => by
      have h := jsize_le f.2
      simp only [jsizeFields, jserFields, List.length_append, List.length_cons]
      omega
  | f :: f2 :: rest => by
      have h1 := jsize_le f.2
      have h2 := jsizeFields_le (f2 :: rest)
      simp only [jsizeFields, jserFields, List.length_append, List.length_cons] at h2 ⊢
      omega

end

theorem jparseVal_digit (f : Nat) (c : Char) (r : List Char)
    (h : c.isDigit = true) :
    jparseVal (f + 1) (c :: r) =
      (match jparseNat (c :: r) with
       | some (n, r2) => some (.num (n : Int), r2)
       | none => none) := by
  obtain ⟨hn, ht, hf, hq, hbk, hbc, hmn, _, _, _⟩ := digit_not_special c h
  rw [jparseVal.eq_def]
  simp [h, hn, ht, hf, hq, hbk, hbc, hmn]

theorem jparseVal_arr_cons (f : Nat) (c : Char) (t : List Char) (h : ¬ c = ']') :
    jparseVal (f + 1) ('[' :: c :: t) =
      (match jparseElems f (c :: t) with
       | some (es, r2) => some (.arr es, r2)
       | none => none) := by
  rw [jparseVal.eq_def]
  simp [h]

theorem jparseVal_obj_cons (f : Nat) (c : Char) (t : List Char) (h : ¬ c = '}') :
    jparseVal (f + 1) ('{' :: c :: t) =
      (match jparseFields f (c :: t) with
       | some (fs, r2) => some (.obj fs, r2)
       | none => none) := by
  rw [jparseVal.eq_def]
  simp [h]

/-- The elements' rendering prefixed by the first element's rendering. -/
theorem jserElems_cons (e : Json) (es : List Json) :
    jserElems (e :: es) =
      jser e ++ (match es with
        | [] => []
        | _ :: _ => ',' :: ' ' :: jserElems es) := by
  cases es <;> simp [jserElems]

/-- The members' rendering prefixed by the first member's rendering. -/
theorem jserFields_cons (kv : String × Json) (fs : List (String × Json)) :
    jserFields (kv :: fs) =
      jStrChars kv.1 ++ ':' :: ' ' :: jser kv.2 ++ (match fs with
        | [] => []
        | _ :: _ => ',' :: ' ' :: jserFields fs) := by
  cases fs <;> simp [jserFields]

mutual

/-- Round trip: parsing a rendered value (with enough fuel, followed by a
non-digit continuation) returns exactly that value. -/
theorem jparseVal_jser : ∀ (v : Json) (f : Nat) (rest : List Char),
    jsize v ≤ f → nonDigitHead rest = true →
    jparseVal f (jser v ++ rest) = some (v, rest)
  | .null, f, rest => by
      intro hf _
      obtain ⟨f', rfl⟩ : ∃ f', f = f' + 1 :=
        ⟨f - 1, by simp [jsize] at hf; omega⟩
      simp only [jser, kwNull, List.cons_append, List.nil_append, jparseVal]
  | .bool true, f, rest => by
      intro hf _
      obtain ⟨f', rfl⟩ : ∃ f', f = f' + 1 :=
        ⟨f - 1, by simp [jsize] at hf; omega⟩
      simp only [jser, kwTrue, List.cons_append, List.nil_append, jparseVal]
  | .bool false, f, rest => by
      intro hf _
      obtain ⟨f', rfl⟩ : ∃ f', f = f' + 1 :=
        ⟨f - 1, by simp [jsize] at hf; omega⟩
      simp only [jser, kwFalse, List.cons_append, List.nil_append, jparseVal]
  | .str s, f, rest => by
      intro hf _
      obtain ⟨f', rfl⟩ : ∃ f', f = f' + 1 :=
        ⟨f - 1, by simp [jsize] at hf; omega⟩
      have hshape : jser (.str s) ++ rest =
          '"' :: (jEscList s.toList ++ '"' :: rest) := by
        simp [jser, jStrChars]
      rw [hshape]
      simp only [jparseVal]
      rw [jEscList_parse]
      rfl
  | .num (Int.ofNat n), f, rest => by
      intro hf hrest
      obtain ⟨f', rfl⟩ : ∃ f', f = f' + 1 :=
        ⟨f - 1, by simp [jsize] at hf; omega⟩
      cases hnc : natChars n with
      | nil => exact absurd hnc (natChars_ne_nil n)
      | cons c cs =>
          have hd : c.isDigit = true :=
            natChars_all_digits n c (by rw [hnc]; simp)
          have hshape : jser (.num (Int.ofNat n)) ++ rest = c :: (cs ++ rest) := by
            simp [jser, intChars, hnc]
          rw [hshape, jparseVal_digit f' c (cs ++ rest) hd,
            show c :: (cs ++ rest) = natChars n ++ rest by simp [hnc],
            jparseNat_natChars n rest hrest]
          rfl
  | .num (Int.negSucc m), f, rest => by
      intro hf hrest
      obtain ⟨f', rfl⟩ : ∃ f', f = f' + 1 :=
        ⟨f - 1, by simp [jsize] at hf; omega⟩
      have hshape : jser (.num (Int.negSucc m)) ++ rest =
          '-' :: (natChars (m + 1) ++ rest) := by
        simp [jser, intChars]
      rw [hshape]
      simp only [jparseVal]
      rw [jparseNat_natChars (m + 1) rest hrest]
      rfl
  | .arr [], f, rest => by
      intro hf _
      obtain ⟨f', rfl⟩ : ∃ f', f = f' + 1 :=
        ⟨f - 1, by simp [jsize, jsizeElems] at hf; omega⟩
      have hshape : jser (.arr []) ++ rest = '[' :: ']' :: rest := by
        simp [jser, jserElems]
      rw [hshape]
      simp only [jparseVal]
  | .arr (e :: es), f, rest => by
      intro hf _
      obtain ⟨f', rfl⟩ : ∃ f', f = f' + 1 :=
        ⟨f - 1, by simp [jsize] at hf; omega⟩
      obtain ⟨c, cs, hsh, hbr, _⟩ := jser_shape e
      have hhead : ∃ tl, jserElems (e :: es) = c :: tl ∧
          cs ++ tl.drop cs.length = tl := by
        rw [jserElems_cons, hsh]
        exact ⟨cs ++ _, rfl, by simp⟩
      obtain ⟨tl, htl, _⟩ := hhead
      have hshape : jser (.arr (e :: es)) ++ rest =
          '[' :: c :: (tl ++ ']' :: rest) := by
        simp [jser, htl]
      rw [hshape, jparseVal_arr_cons f' c _ hbr,
        show c :: (tl ++ ']' :: rest) = jserElems (e :: es) ++ ']' :: rest by
          simp [htl],
        jparseElems_jser (e :: es) f' rest (by simp)
          (by simp [jsize] at hf; omega)]
  | .obj [], f, rest => by
      intro hf _
      obtain ⟨f', rfl⟩ : ∃ f', f = f' + 1 :=
        ⟨f - 1, by simp [jsize, jsizeFields] at hf; omega⟩
      have hshape : jser (.obj []) ++ rest = '{' :: '}' :: rest := by
        simp [jser, jserFields]
      rw [hshape]
      simp only [jparseVal]
  | .obj (kv :: fs), f, rest => by
      intro hf _
      obtain ⟨f', rfl⟩ : ∃ f', f = f' + 1 :=
        ⟨f - 1, by simp [jsize] at hf; omega⟩
      have hhead : ∃ tl, jserFields (kv :: fs) = '"' :: tl := by
        rw [jserFields_cons]
        simp only [jStrChars, List.cons_append]
        exact ⟨_, rfl⟩
      obtain ⟨tl, htl⟩ := hhead
      have hshape : jser (.obj (kv :: fs)) ++ rest =
          '{' :: '"' :: (tl ++ '}' :: rest) := by
        simp [jser, htl]
      rw [hshape, jparseVal_obj_cons f' '"' _ (by decide),
        show ('"' :: (tl ++ '}' :: rest) : List Char) =
            jserFields (kv :: fs) ++ '}' :: rest by simp [htl],
        jparseFields_jser (kv :: fs) f' rest (by simp)
          (by simp [jsize] at hf; omega)]

/-- Round trip for nonempty rendered element lists, consuming the `]`. -/
theorem jparseElems_jser : ∀ (es : List Json) (f : Nat) (rest : List Char),
    es ≠ [] → jsizeElems es ≤ f →
    jparseElems f (jserElems es ++ ']' :: rest) = some (es, rest)
  | [], _, _ => by intro h _; exact absurd rfl h
  | [e], f, rest => by
      intro _ hf
      obtain ⟨f', rfl⟩ : ∃ f', f = f' + 1 :=
        ⟨f - 1, by simp [jsizeElems] at hf; omega⟩
      simp only [jserElems, jparseElems]
      rw [jparseVal_jser e f' (']' :: rest)
        (by simp [jsizeElems] at hf; omega) (by simp [nonDigitHead])]
      dsimp only
      rw [if_pos rfl]
  | e :: e2 :: rest2, f, rest => by
      intro _ hf
      obtain ⟨f', rfl⟩ : ∃ f', f = f' + 1 :=
        ⟨f - 1, by simp [jsizeElems] at hf; omega⟩
      simp only [jserElems, jparseElems, List.append_assoc, List.cons_append]
      rw [jparseVal_jser e f' (',' :: ' ' :: (jserElems (e2 :: rest2) ++ ']' :: rest))
        (by simp [jsizeElems] at hf; omega) (by simp [nonDigitHead])]
      dsimp only
      rw [if_neg (by decide), if_pos rfl]
      rw [if_pos rfl]
      rw [jparseElems_jser (e2 :: rest2) f' rest (by simp)
          (by simp only [jsizeElems] at hf ⊢; omega)]

/-- Round trip for nonempty rendered member lists, consuming the `}`. -/
theorem jparseFields_jser : ∀ (fs : List (String × Json)) (f : Nat) (rest : List Char),
    fs ≠ [] → jsizeFields fs ≤ f →
    jparseFields f (jserFields fs ++ '}' :: rest) = some (fs, rest)
  | [], _, _ => by intro h _; exact absurd rfl h
  | [kv], f, rest => by
      intro _ hf
      obtain ⟨f', rfl⟩ : ∃ f', f = f' + 1 :=
        ⟨f - 1, by simp [jsizeFields] at hf; omega⟩
      have hshape : jserFields [kv] ++ '}' :: rest =
          '"' :: (jEscList kv.1.toList ++
            '"' :: (':' :: ' ' :: (jser kv.2 ++ '}' :: rest))) := by
        simp [jserFields, jStrChars]
      rw [hshape]
      simp only [jparseFields]
      rw [jEscList_parse]
      dsimp only
      rw [if_pos rfl]
      rw [if_pos rfl]
      rw [jparseVal_jser kv.2 f' ('}' :: rest)
        (by simp [jsizeFields] at hf; omega) (by simp [nonDigitHead])]
      dsimp only
      rw [if_pos rfl]
      rfl
  | kv :: kv2 :: rest2, f, rest => by
      intro _ hf
      obtain ⟨f', rfl⟩ : ∃ f', f = f' + 1 :=
        ⟨f - 1, by simp [jsizeFields] at hf; omega⟩
      have hshape : jserFields (kv :: kv2 :: rest2) ++ '}' :: rest =
          '"' :: (jEscList kv.1.toList ++
            '"' :: (':' :: ' ' :: (jser kv.2 ++
              ',' :: ' ' :: (jserFields (kv2 :: rest2) ++ '}' :: rest)))) := by
        simp [jserFields, jStrChars]
      rw [hshape]
      simp only [jparseFields]
      rw [jEscList_parse]
      dsimp only
      rw [if_pos rfl]
      rw [if_pos rfl]
      rw [jparseVal_jser kv.2 f'
          (',' :: ' ' :: (jserFields (kv2 :: rest2) ++ '}' :: rest))
          (by simp [jsizeFields] at hf; omega) (by simp [nonDigitHead])]
      dsimp only
      rw [if_neg (by decide), if_pos rfl]
      rw [if_pos rfl]
      rw [jparseFields_jser (kv2 :: rest2) f' rest (by simp)
          (by simp only [jsizeFields] at hf ⊢; omega)]
      rfl

end

/-- C8: `format_sse_event` produces exactly the frame
`event: <type>\ndata: <json>\n\n`, the JSON payload occupies a single data
line (all newlines and non-ASCII in string fields are escaped), and the
decoder recovers the event type and an equal payload from the frame. -/
theorem c8_sse_frame_roundtrip (t : String) (v : Json)
    (ht : ∀ c ∈ t.toList, c ≠ '\n') :
    format_sse_event t v = "event: " ++ t ++ "\ndata: " ++ jdumps v ++ "\n\n" ∧
    (∀ c ∈ (jdumps v).toList, c ≠ '\n') ∧
    sseDecode (format_sse_event t v) = some (t, v) := by
  have hnl : ∀ c ∈ jser v, c ≠ '\n' := jser_no_newline v
  refine ⟨rfl, hnl, ?_⟩
  have hfl : (format_sse_event t v).toList =
      "event: ".toList ++ (t.toList ++
        ('\n' :: "data: ".toList ++ (jser v ++ ['\n', '\n']))) := by
    simp only [format_sse_event, jdumps, String.toList, String.data_append,
      List.append_assoc]
  have hp1 : ∀ c ∈ t.toList, (fun c => decide (c ≠ '\n')) c = true := by
    intro c hc
    simp [ht c hc]
  have hp2 : ∀ c : Char,
      ('\n' :: "data: ".toList ++ (jser v ++ ['\n', '\n'])).head? = some c →
      (fun c => decide (c ≠ '\n')) c = false := by
    intro c hc
    simp at hc
    rw [← hc]
    simp
  have hq1 : ∀ c ∈ jser v, (fun c => decide (c ≠ '\n')) c = true := by
    intro c hc
    simp [hnl c hc]
  have hq2 : ∀ c : Char, (['\n', '\n'] : List Char).head? = some c →
      (fun c => decide (c ≠ '\n')) c = false := by
    intro c hc
    simp at hc
    rw [← hc]
    simp
  have hassoc : ('\n' :: "data: ".toList ++ (jser v ++ ['\n', '\n'])) =
      ('\n' :: "data: ".toList) ++ (jser v ++ ['\n', '\n']) := by
    simp
  have hval : jparseVal (3 * (jser v).length + 1) (jser v) = some (v, []) := by
    have h := jparseVal_jser v (3 * (jser v).length + 1) []
      (by have := jsize_le v; omega) rfl
    simpa using h
  simp only [sseDecode]
  rw [hfl, stripPre_exact]
  dsimp only
  rw [takeWhile_all_append _ _ _ hp1 hp2, dropWhile_all_append _ _ _ hp1 hp2,
    hassoc, stripPre_exact]
  dsimp only
  rw [takeWhile_all_append _ _ _ hq1 hq2, dropWhile_all_append _ _ _ hq1 hq2]
  simp only [hval]
  rfl

/-- C8, witness: a progress payload whose message embeds a newline, a BMP
non-ASCII character and an astral character decodes back intact. -/
theorem c8_sse_frame_roundtrip_witness :
    sseDecode (format_sse_event "progress"
      (Json.obj [("percent", Json.num 42),
                 ("message", Json.str "step 1\nstep ✓ 😀")])) =
      some ("progress",
        Json.obj [("percent", Json.num 42),
                  ("message", Json.str "step 1\nstep ✓ 😀")]) :=
  (c8_sse_frame_roundtrip "progress"
    (Json.obj [("percent", Json.num 42),
               ("message", Json.str "step 1\nstep ✓ 😀")]) (by decide)).2.2
